import Mathlib

/-!
Verification of the task-orchestration engine of the `my_api_agent` repository.

The Python sources under `src/my_api_agent/` are shallowly embedded below:

* `nodes.py` — the five orchestration steps (`DecomposeQuery`, `SelectSpec`,
  `FindAndPrepareApi`, `ExecuteAPI`, `SummarizeResults`) become pure Lean
  functions over an explicit `Shared` blackboard record.  Python exceptions
  (`raise ...`) are modelled with `Except String`; dictionaries become
  association lists; Python truthiness checks (`if not x`) are translated
  explicitly at every site.
* `flow.py` — the action-labelled transition map becomes `flowNext`.
* The external collaborators (OpenAI client, `requests`) are modelled as
  oracle inputs: each machine step consumes one `StepInput` carrying the
  collaborator responses, exactly as the code consumes their return values.
* Response bodies and parameter values are abstracted as `String` payloads;
  no claim below depends on the structure of a payload.

The step-graph engine itself (the `pocketflow` `Node`/`Flow` classes) is not
part of this repository's sources; it is modelled from the specification
(§4.1), see `step` below.
-/

namespace ApiAgent

/-! ### Python string primitives

`pyIsSpace` is the whitespace class used by `str.strip()` and by the regex
class `\s`: space, tab, newline, carriage return, vertical tab, form feed
(the ASCII subset; the further Unicode whitespace Python also accepts does
not occur in the inputs reasoned about here). -/

def pyIsSpace (c : Char) : Bool :=
  c == ' ' || c == '\t' || c == '\n' || c == '\r' || c == '\x0b' || c == '\x0c'

/-- Python `str.strip()` with no arguments: drop leading and trailing
whitespace. -/
def pyStrip (s : String) : String :=
  String.mk (((s.data.dropWhile pyIsSpace).reverse.dropWhile pyIsSpace).reverse)

/-- Scan for an occurrence of `needle` at any position of the haystack. -/
def pyContainsAux (needle : List Char) : List Char → Bool
  | [] => needle.isEmpty
  | c :: t => needle.isPrefixOf (c :: t) || pyContainsAux needle t

/-- Python's substring test `sub in s`. -/
def pyContains (s sub : String) : Bool :=
  pyContainsAux sub.data s.data

/-- Python `str.replace(pattern, repl)` over character lists: replace every
non-overlapping occurrence, scanning left to right.  The fuel argument only
bounds the recursion; every step consumes at least one character (the
patterns substituted by `nodes.py` are never empty, and an empty pattern is
left untouched here). -/
def pyReplaceAux (pattern repl : List Char) : Nat → List Char → List Char
  | 0, cs => cs
  | _ + 1, [] => []
  | fuel + 1, c :: t =>
    if pattern ≠ [] ∧ pattern.isPrefixOf (c :: t) then
      repl ++ pyReplaceAux pattern repl fuel ((c :: t).drop pattern.length)
    else
      c :: pyReplaceAux pattern repl fuel t

/-- Python `str.replace(pattern, repl)`. -/
def pyReplace (s pattern repl : String) : String :=
  String.mk (pyReplaceAux pattern.data repl.data (s.data.length + 1) s.data)

/-- Python `str.upper()` (ASCII, as used for HTTP method names). -/
def pyToUpper (s : String) : String :=
  String.mk (s.data.map Char.toUpper)

/-- Python `str.rstrip("/")`. -/
def pyRstripSlash (s : String) : String :=
  String.mk ((s.data.reverse.dropWhile (fun c => c == '/')).reverse)

/-- Python `str.lstrip("/")`. -/
def pyLstripSlash (s : String) : String :=
  String.mk (s.data.dropWhile (fun c => c == '/'))

/-! ### Data model (spec §3, mirrored from `nodes.py`) -/

/-- Task status; `nodes.py` uses the strings `"pending"`, `"completed"`,
`"error"`. -/
inductive Status where
  | pending
  | completed
  | error
deriving DecidableEq, Repr

/-- The request descriptor built by `FindAndPrepareApi.exec` (the
`api_details` dictionary handed to `execute_api_call`). -/
structure ApiDetails where
  method : String
  url : Option String
  headers : List (String × String)
  params : List (String × String)
  body : Option String
deriving DecidableEq, Repr

/-- One sub-task dictionary as created by `DecomposeQuery.post`. -/
structure AgentTask where
  id : Nat
  description : String
  status : Status
  selected_spec_id : Option String
  api_details : Option ApiDetails
  result : Option String
  error : Option String
deriving DecidableEq, Repr

/-- The outcome dictionary returned by `execute_api_call`
(`utils/api_executor.py`): status code (absent on transport failure),
body, error message (absent on success). -/
structure ApiResult where
  status_code : Option Int
  body : Option String
  error : Option String
deriving DecidableEq, Repr

/-- The part of a parsed OpenAPI document the orchestration core reads:
the `url` field of each entry of the `servers` section (`none` when the
entry has no `url` key). -/
structure SpecDoc where
  servers : List (Option String)
deriving DecidableEq, Repr

/-- One loaded catalog entry: `loaded_specs[id] = {parsed, summary}`. -/
structure SpecInfo where
  summary : String
  parsed : SpecDoc
deriving DecidableEq, Repr

/-- The structured block `FindAndPrepareApi.exec` obtains from the language
model after YAML parsing and key validation (lines 333–339 of `nodes.py`):
method, path template, base server URL and the four parameter groups.
Parameter values are abstracted as strings (`str(value)` is applied by the
code before substitution). -/
structure ParsedDetails where
  method : String
  path : String
  server_base_url : String
  paramsPath : List (String × String)
  paramsQuery : List (String × String)
  paramsHeader : List (String × String)
  body : Option String
deriving DecidableEq, Repr

/-- Result of `FindAndPrepareApi.exec`: either the error dictionary
`{"error": msg}` or the prepared `api_details`. -/
inductive FindRes where
  | err (msg : String)
  | ok (d : ApiDetails)
deriving DecidableEq, Repr

/-- The shared store threaded through every node (spec §3 SharedContext). -/
structure Shared where
  user_query : String
  loaded_specs : List (String × SpecInfo)
  sub_tasks : List AgentTask
  task_results : List (Nat × Option String)
  current_task_id : Option Nat
  final_summary : Option String
deriving DecidableEq, Repr

/-! ### Association-list helpers (Python `dict` operations) -/

/-- `key in dict` / `dict.get(key)` on the catalog mapping. -/
def dictGet (l : List (String × SpecInfo)) (k : String) : Option SpecInfo :=
  (l.find? (fun p => p.1 == k)).map (fun p => p.2)

def dictHas (l : List (String × SpecInfo)) (k : String) : Bool :=
  (dictGet l k).isSome

/-- `task_results.get(task_id)` / `task_id in task_results`. -/
def dictGetNat (l : List (Nat × Option String)) (k : Nat) : Option (Option String) :=
  (l.find? (fun p => p.1 == k)).map (fun p => p.2)

/-- `task_results[task_id] = value` (overwrite in place, else append). -/
def dictSetNat : List (Nat × Option String) → Nat → Option String → List (Nat × Option String)
  | [], k, v => [(k, v)]
  | (k0, v0) :: rest, k, v =>
    if k0 = k then (k, v) :: rest else (k0, v0) :: dictSetNat rest k v

/-! ### Task-list helpers -/

def AgentTask.isPending (t : AgentTask) : Bool :=
  match t.status with
  | .pending => true
  | _ => false

/-- `SelectSpec.prep`'s scan: the first task with status `"pending"`. -/
def firstPending (l : List AgentTask) : Option AgentTask :=
  l.find? AgentTask.isPending

/-- `next(task for task in sub_tasks if task["id"] == i)`: the first task
with the given id. -/
def findById (l : List AgentTask) (i : Nat) : Option AgentTask :=
  l.find? (fun t => t.id == i)

/-- In-place mutation of the first task with the given id (the Python code
looks the task object up with `next(...)` and assigns into it). -/
def updateById : List AgentTask → Nat → (AgentTask → AgentTask) → List AgentTask
  | [], _, _ => []
  | t :: ts, i, f => if t.id = i then f t :: ts else t :: updateById ts i f

/-- Number of tasks still `"pending"` (proof-side measure, not source code). -/
def pendingCount (l : List AgentTask) : Nat :=
  (l.filter AgentTask.isPending).length

/-! ### The decomposition regex

`DecomposeQuery.post` runs `re.findall(r"^\s*\d+\.\s*(.*)", raw, re.MULTILINE)`.
With `re.MULTILINE`, `^` matches at the start of the string and right after
each `'\n'`.  Because `\s`, `\d` and `.` (which excludes `'\n'`) are pairwise
compatible with greedy matching here — no backtracking can ever turn a
failure into a success — the match attempt at an anchor position is the
deterministic `matchAt` below, and `findall` scans left to right, resuming
after the end of each match (`scanAux`). -/

/-- Try `\s*\d+\.\s*(.*)` at this position; return the captured group and
the remainder of the input after the match. -/
def matchAt (cs : List Char) : Option (List Char × List Char) :=
  let cs1 := cs.dropWhile pyIsSpace
  match cs1.takeWhile Char.isDigit with
  | [] => none
  | _ :: _ =>
    match cs1.dropWhile Char.isDigit with
    | '.' :: cs2 =>
      let cs3 := cs2.dropWhile pyIsSpace
      let grp := cs3.takeWhile (fun c => !(c == '\n'))
      some (grp, cs3.drop grp.length)
    | _ => none

/-- Left-to-right scan of `re.findall`.  `anchor` records whether `^` matches
at the current position.  The fuel argument only bounds the recursion; every
recursive call consumes at least one character, so `length + 1` fuel is never
exhausted. -/
def scanAux : Nat → List Char → Bool → List (List Char)
  | 0, _, _ => []
  | _ + 1, [], _ => []
  | fuel + 1, c :: rest, anchor =>
    if anchor then
      match matchAt (c :: rest) with
      | some (grp, rest') => grp :: scanAux fuel rest' false
      | none => scanAux fuel rest (c == '\n')
    else
      scanAux fuel rest (c == '\n')

/-- `re.findall(r"^\s*\d+\.\s*(.*)", s, re.MULTILINE)`. -/
def findSteps (s : String) : List String :=
  (scanAux (s.data.length + 1) s.data true).map String.mk

/-! ### DecomposeQuery (nodes.py lines 42–114) -/

/-- A fresh pending task as built by `DecomposeQuery.post`. -/
def mkTask (i : Nat) (desc : String) : AgentTask :=
  { id := i, description := desc, status := .pending, selected_spec_id := none,
    api_details := none, result := none, error := none }

/-- `DecomposeQuery.exec` (lines 54–71): the marker check
`if "LLM_ERROR" in llm_response: raise RuntimeError(...)` is modelled as
`Except.error`. -/
def DecomposeQuery.exec (llmResponse : String) : Except String String :=
  if pyContains llmResponse "LLM_ERROR" then
    .error ("LLM failed during task decomposition: " ++ llmResponse)
  else
    .ok llmResponse

/-- `DecomposeQuery.post` (lines 73–114): parse the numbered steps, fall back
to a single task holding the whole stripped response, raise when zero tasks
result.  Returns the produced `sub_tasks` and the routing action. -/
def DecomposeQuery.post (execRes : String) : Except String (List AgentTask × String) :=
  let raw := pyStrip execRes
  let steps := findSteps raw
  match steps with
  | [] =>
    if raw == "" then
      .error "Decomposition resulted in zero tasks."
    else
      .ok ([mkTask 1 raw], "process_task")
  | _ :: _ =>
    .ok (steps.enum.map (fun p => mkTask (p.1 + 1) (pyStrip p.2)), "process_task")

/-! ### SelectSpec (nodes.py lines 116–213) -/

/-- `SelectSpec.exec` (lines 153–181), given the collaborator response for a
pending task: on the reserved marker return the sentinel, otherwise the
stripped response. -/
def SelectSpec.exec (llmResponse : String) : String :=
  if pyContains llmResponse "LLM_ERROR" then "SPEC_SELECTION_FAILED"
  else pyStrip llmResponse

/-- `SelectSpec.post` (lines 183–213) for the case where a task was selected
(`exec_res ≠ None`).  `if not current_task_id` is Python truthiness: `None`
or `0` raise. -/
def SelectSpec.post (sh : Shared) (execRes : String) :
    Except (String × Shared) (Shared × Option String) :=
  match sh.current_task_id with
  | none => .error ("current_task_id missing in shared store during SelectSpec post.", sh)
  | some cid =>
    if cid = 0 then
      .error ("current_task_id missing in shared store during SelectSpec post.", sh)
    else
      match findById sh.sub_tasks cid with
      | none => .error ("Task with id " ++ toString cid ++ " not found in shared sub_tasks.", sh)
      | some _ =>
        if execRes == "SPEC_SELECTION_FAILED" || !(dictHas sh.loaded_specs execRes) then
          .ok ({ sh with sub_tasks := updateById sh.sub_tasks cid (fun t =>
              { t with status := .error,
                       error := some ("Failed to select a valid spec. LLM response: " ++ execRes) }) },
           some "process_task_loop")
        else
          .ok ({ sh with sub_tasks := updateById sh.sub_tasks cid (fun t =>
              { t with selected_spec_id := some execRes }) },
           some "spec_selected")

/-- The whole `SelectSpec` node: prep (lines 121–151) finds the first pending
task and records its id (or signals completion), exec consumes the
collaborator response, post routes.  When there is a pending task but no
loaded specs, prep raises — after having written `current_task_id`. -/
def selectSpecStep (sh : Shared) (llm : String) :
    Except (String × Shared) (Shared × Option String) :=
  match firstPending sh.sub_tasks with
  | none => .ok (sh, some "summarize")
  | some t =>
    let sh1 := { sh with current_task_id := some t.id }
    if sh.loaded_specs.isEmpty then
      .error ("No loaded OpenAPI specs found in shared store to select from.", sh1)
    else
      SelectSpec.post sh1 (SelectSpec.exec llm)

/-! ### FindAndPrepareApi (nodes.py lines 215–412) -/

/-- Error message for an unresolved path parameter (line 367). -/
def fillMeErr (n : String) : String :=
  "Required path parameter \x27" ++ n ++ "\x27 could not be determined."

/-- Base-URL fallback (lines 351–358): use the model's `server_base_url`
when truthy, else the `url` of the first server entry of the spec. -/
def resolveBaseUrl (details : ParsedDetails) (spec : SpecDoc) : Except String String :=
  if details.server_base_url != "" then
    .ok details.server_base_url
  else
    match spec.servers with
    | some u :: _ => .ok u
    | _ => .error "Could not determine server base URL from LLM or spec."

/-- Path-parameter substitution (lines 363–372): iterate the bindings in
order; fail on the placeholder token; otherwise literally replace
`"{name}"` and then `"{{name}}"` in the template. -/
def substPathParams : String → List (String × String) → Except String String
  | p, [] => .ok p
  | p, (n, v) :: rest =>
    if v == "<FILL_ME>" then
      .error (fillMeErr n)
    else
      substPathParams
        (pyReplace (pyReplace p ("\x7b" ++ n ++ "\x7d") v) ("\x7b\x7b" ++ n ++ "\x7d\x7d") v)
        rest

/-- The deterministic tail of `FindAndPrepareApi.exec` (lines 341–380):
build `api_details` from the parsed block, resolve the base URL, substitute
path parameters, join base and path with exactly one slash. -/
def prepareDetails (details : ParsedDetails) (spec : SpecDoc) : Except String ApiDetails :=
  match resolveBaseUrl details spec with
  | .error m => .error m
  | .ok base =>
    match substPathParams details.path details.paramsPath with
    | .error m => .error m
    | .ok finalPath =>
      .ok { method := pyToUpper details.method,
            url := some (pyRstripSlash base ++ "/" ++ pyLstripSlash finalPath),
            headers := details.paramsHeader,
            params := details.paramsQuery,
            body := details.body }

/-- `FindAndPrepareApi.exec` (lines 261–384).  The collaborator response and
the YAML front-end (parsing and key validation, lines 320–339) are oracle
inputs: `llm` is the raw response, `parse` the outcome of parsing it into a
structured block (`Except.error` carries the exception text).  The marker
check and everything after parsing are source code. -/
def findPrepExec (llm : String) (parse : Except String ParsedDetails) (spec : SpecDoc) : FindRes :=
  if pyContains llm "LLM_ERROR" then
    .err ("LLM error during API detail extraction: " ++ llm)
  else
    match parse with
    | .error m => .err ("Error parsing LLM response: " ++ m)
    | .ok details =>
      match prepareDetails details spec with
      | .error m => .err m
      | .ok d => .ok d

/-- Abbreviated stand-in for the Python `repr` of the `api_details`
dictionary interpolated into the dead-branch message of
`FindAndPrepareApi.post` (line 406); no claim depends on this string. -/
def apiDetailsRepr (d : ApiDetails) : String :=
  d.method ++ " " ++ (match d.url with | none => "None" | some u => u)

/-- `FindAndPrepareApi.post` (lines 386–412). -/
def findPrepPost (sh : Shared) (execRes : FindRes) :
    Except (String × Shared) (Shared × Option String) :=
  match sh.current_task_id with
  | none => .error ("Task None vanished in FindAndPrepareApi post.", sh)
  | some cid =>
    match findById sh.sub_tasks cid with
    | none => .error ("Task " ++ toString cid ++ " vanished in FindAndPrepareApi post.", sh)
    | some _ =>
      match execRes with
      | .err m =>
        .ok ({ sh with sub_tasks := updateById sh.sub_tasks cid (fun t =>
            { t with status := .error, error := some m }) },
         some "process_task_loop")
      | .ok d =>
        if d.url = none || d.url = some "" then
          .ok ({ sh with sub_tasks := updateById sh.sub_tasks cid (fun t =>
              { t with status := .error,
                       error := some ("Invalid API details prepared: " ++ apiDetailsRepr d) }) },
           some "process_task_loop")
        else
          .ok ({ sh with sub_tasks := updateById sh.sub_tasks cid (fun t =>
              { t with api_details := some d }) },
           some "execute")

/-- The whole `FindAndPrepareApi` node: prep (lines 220–259) validates the
shared context and fetches the selected spec, exec prepares the descriptor,
post stores it or records the failure. -/
def findPrepStep (sh : Shared) (llm : String) (parse : Except String ParsedDetails) :
    Except (String × Shared) (Shared × Option String) :=
  match sh.current_task_id with
  | none => .error ("FindAndPrepareApi: current_task_id missing.", sh)
  | some cid =>
    if cid = 0 then
      .error ("FindAndPrepareApi: current_task_id missing.", sh)
    else
      match findById sh.sub_tasks cid with
      | none => .error ("FindAndPrepareApi: Task " ++ toString cid ++ " not found.", sh)
      | some t =>
        match t.selected_spec_id with
        | none => .error ("FindAndPrepareApi: Task " ++ toString cid ++ " has no selected_spec_id.", sh)
        | some sid =>
          if sid = "" then
            .error ("FindAndPrepareApi: Task " ++ toString cid ++ " has no selected_spec_id.", sh)
          else
            match dictGet sh.loaded_specs sid with
            | none => .error ("FindAndPrepareApi: Parsed spec for " ++ sid ++ " not found.", sh)
            | some info =>
              findPrepPost sh (findPrepExec llm parse info.parsed)

/-! ### ExecuteAPI (nodes.py lines 414–479) -/

/-- The success classification of `ExecuteAPI.post` (lines 455–459):
status code present, in 200–299, and no error reported. -/
def isSuccess (api : ApiResult) : Bool :=
  match api.status_code with
  | none => false
  | some sc => decide (200 ≤ sc) && decide (sc < 300) && api.error.isNone

/-- The diagnostic message `ExecuteAPI.post` records on failure
(lines 469–472): status code (`"N/A"` when absent), executor error
(defaulted when absent), and the response body truncated to 200
characters.  Python renders an absent body as `"None"`. -/
def execFullError (api : ApiResult) : String :=
  let scStr := match api.status_code with
    | none => "N/A"
    | some sc => toString sc
  let errMsg := match api.error with
    | none => "Unknown API execution error"
    | some e => e
  let bodyStr := match api.body with
    | none => "None"
    | some b => b
  "API Call Failed (Status: " ++ scStr ++ "): " ++ errMsg ++
    ". Response Body: " ++ (String.mk (bodyStr.data.take 200)) ++ "..."

/-- The whole `ExecuteAPI` node: prep (lines 418–434) validates the stored
descriptor, exec delegates to the request executor (oracle input `api`),
post (lines 443–479) classifies and records the outcome and always loops
back. -/
def executeApiStep (sh : Shared) (api : ApiResult) :
    Except (String × Shared) (Shared × Option String) :=
  match sh.current_task_id with
  | none => .error ("ExecuteAPI: current_task_id missing.", sh)
  | some cid =>
    if cid = 0 then
      .error ("ExecuteAPI: current_task_id missing.", sh)
    else
      match findById sh.sub_tasks cid with
      | none => .error ("ExecuteAPI: Task " ++ toString cid ++ " not found.", sh)
      | some t =>
        match t.api_details with
        | none => .error ("ExecuteAPI: Invalid or missing api_details for task " ++ toString cid ++ ".", sh)
        | some d =>
          match d.url with
          | none => .error ("ExecuteAPI: Invalid or missing api_details for task " ++ toString cid ++ ".", sh)
          | some u =>
            if u = "" then
              .error ("ExecuteAPI: Invalid or missing api_details for task " ++ toString cid ++ ".", sh)
            else
              if isSuccess api then
                .ok ({ sh with
                        sub_tasks := updateById sh.sub_tasks cid (fun t0 =>
                          { t0 with status := .completed, result := api.body, error := none }),
                        task_results := dictSetNat sh.task_results cid api.body },
                     some "process_task_loop")
              else
                .ok ({ sh with
                        sub_tasks := updateById sh.sub_tasks cid (fun t0 =>
                          { t0 with status := .error, result := none,
                                    error := some (execFullError api) }) },
                     some "process_task_loop")

/-! ### SummarizeResults (nodes.py lines 481–548) -/

/-- `json.dumps` of a payload, with the payload itself abstracted as a
string (escaping abstracted away; no claim depends on this). -/
def dumpsPayload : Option String → String
  | none => "null"
  | some s => "\"" ++ s ++ "\""

/-- `SummarizeResults.prep` (lines 485–516): format every task that has a
recorded result, in task order. -/
def formatResults (sh : Shared) : String :=
  if sh.task_results.isEmpty then
    "No successful task results were obtained."
  else
    let parts := sh.sub_tasks.filterMap (fun t =>
      match dictGetNat sh.task_results t.id with
      | some body =>
        some ("Task " ++ toString t.id ++ ": " ++ t.description ++ "\nResult:\n```json\n" ++
          dumpsPayload body ++ "\n```")
      | none => none)
    let s := String.intercalate "\n\n" parts
    if s = "" then
      "No successful task results found to format (check task_results structure)."
    else s

/-- `SummarizeResults.exec` (lines 518–540): on the marker, fall back to the
deterministic message embedding the formatted results. -/
def SummarizeResults.exec (formatted llm : String) : String :=
  if pyContains llm "LLM_ERROR" then
    "Could not generate summary due to LLM error. Results obtained: " ++ formatted
  else llm

/-- The whole `SummarizeResults` node; its post stores the summary and
returns `None`, the terminal action. -/
def summarizeStep (sh : Shared) (llm : String) :
    Except (String × Shared) (Shared × Option String) :=
  .ok ({ sh with final_summary := some (SummarizeResults.exec (formatResults sh) llm) }, none)

/-! ### The step graph (flow.py) and the engine

The per-task loop of `create_api_agent_flow` starts at `SelectSpec` (the two
lead-in nodes `LoadAllSpecs` and `DecomposeQuery` run once and only feed the
initial `Shared`, so the machine starts at the loop).  The engine itself
(`pocketflow.Flow`) is not in this repository's sources. -/

/-- The nodes of the per-task loop, plus the two absorbing outcomes:
`terminated` (a finalize phase produced an action with no outgoing edge)
and `crashed` (an unrecovered failure propagated out of a phase). -/
inductive NodeId where
  | selectSpec
  | findPrep
  | executeAPI
  | summarize
  | terminated
  | crashed
deriving DecidableEq, Repr

/-- The collaborator responses one engine step may consume: the language
model's text, the YAML front-end outcome for `FindAndPrepareApi`, and the
request executor's outcome. -/
structure StepInput where
  llm : String
  parse : Except String ParsedDetails
  api : ApiResult

/-- One engine configuration: current node and shared store. -/
structure Config where
  node : NodeId
  shared : Shared
deriving DecidableEq

/-- The action-labelled transition map of `create_api_agent_flow`
(flow.py lines 29–49), restricted to the per-task loop. -/
def flowNext : NodeId → String → Option NodeId
  | .selectSpec, "spec_selected" => some .findPrep
  | .selectSpec, "summarize" => some .summarize
  | .selectSpec, "process_task_loop" => some .selectSpec
  | .findPrep, "execute" => some .executeAPI
  | .findPrep, "process_task_loop" => some .selectSpec
  | .executeAPI, "process_task_loop" => some .selectSpec
  | _, _ => none

/-- Dispatch one node's three phases. -/
def nodeRun : NodeId → Shared → StepInput → Except (String × Shared) (Shared × Option String)
  | .selectSpec, sh, i => selectSpecStep sh i.llm
  | .findPrep, sh, i => findPrepStep sh i.llm i.parse
  | .executeAPI, sh, i => executeApiStep sh i.api
  | _, sh, _ => .ok (sh, none)

/-- Modelled from the spec: the `pocketflow` step-graph engine (§4.1) is not
under `src/`.  One engine step runs the current node's three phases and
follows the action-labelled edge; an action with no outgoing edge (including
the terminal step's `None`) ends the run, and an unrecovered failure ends it
with the partial context preserved. -/
def step (c : Config) (i : StepInput) : Config :=
  match c.node with
  | .terminated => c
  | .crashed => c
  | .summarize =>
    match summarizeStep c.shared i.llm with
    | .error e => { node := .crashed, shared := e.2 }
    | .ok (sh, _) => { node := .terminated, shared := sh }
  | n =>
    match nodeRun n c.shared i with
    | .error e => { node := .crashed, shared := e.2 }
    | .ok (sh, none) => { node := .terminated, shared := sh }
    | .ok (sh, some a) =>
      match flowNext n a with
      | some n' => { node := n', shared := sh }
      | none => { node := .terminated, shared := sh }

/-- Run the engine for `k` steps, feeding collaborator responses from the
stream. -/
def run (stream : Nat → StepInput) : Nat → Config → Config
  | 0, c => c
  | k + 1, c => run (fun n => stream (n + 1)) k (step c (stream 0))

/-- How many of the first `k` configurations sit at the Task Selector. -/
def selectCount (stream : Nat → StepInput) : Nat → Config → Nat
  | 0, _ => 0
  | k + 1, c =>
    (if c.node = .selectSpec then 1 else 0) +
      selectCount (fun n => stream (n + 1)) k (step c (stream 0))

/-- The run has ended (terminal action reached, or a failure propagated). -/
def Done (c : Config) : Prop :=
  c.node = .terminated ∨ c.node = .crashed

/-- Well-formedness invariant carried through the loop: task ids are
duplicate-free, and while a task is being processed the recorded current id
names a pending task. -/
def WF (c : Config) : Prop :=
  (c.shared.sub_tasks.map AgentTask.id).Nodup ∧
    ((c.node = .findPrep ∨ c.node = .executeAPI) →
      ∃ cid t, c.shared.current_task_id = some cid ∧
        findById c.shared.sub_tasks cid = some t ∧ t.status = .pending)

/-- Node rank for the termination measure. -/
def rank : NodeId → Nat
  | .selectSpec => 3
  | .findPrep => 2
  | .executeAPI => 1
  | .summarize => 1
  | .terminated => 0
  | .crashed => 0

/-- Termination measure: three engine steps per pending task, plus the
distance to the loop head. -/
def mu (c : Config) : Nat :=
  3 * pendingCount c.shared.sub_tasks + rank c.node

/-! ### Sample values used by concrete witnesses and counterexamples -/

/-- A collaborator-input with no useful content. -/
def inp0 : StepInput :=
  { llm := "", parse := .error "", api := { status_code := none, body := none, error := none } }

def specInfoW : SpecInfo :=
  { summary := "Widget API", parsed := { servers := [some "https://api.example.com"] } }

def specInfoNoServers : SpecInfo :=
  { summary := "Widget API", parsed := { servers := [] } }

/-- A run whose task list is already exhausted. -/
def shEmpty : Shared :=
  { user_query := "q", loaded_specs := [("widget.yaml", specInfoW)], sub_tasks := [],
    task_results := [], current_task_id := none, final_summary := none }

/-- A run with one pending task. -/
def shOne : Shared :=
  { user_query := "q", loaded_specs := [("widget.yaml", specInfoW)],
    sub_tasks := [mkTask 1 "Get widget"], task_results := [], current_task_id := none,
    final_summary := none }

/-- A run whose only loaded catalog id contains the reserved failure
marker as a substring. -/
def shMarkerSpec : Shared :=
  { user_query := "q", loaded_specs := [("LLM_ERROR_spec", specInfoW)],
    sub_tasks := [mkTask 1 "Get widget"], task_results := [], current_task_id := none,
    final_summary := none }

/-- The store produced when the selector rejects the marker-bearing
response against `shMarkerSpec`. -/
def shMarkerAfter : Shared :=
  { shMarkerSpec with
      current_task_id := some 1
      sub_tasks := [{ id := 1, description := "Get widget", status := .error,
                      selected_spec_id := none, api_details := none, result := none,
                      error := some "Failed to select a valid spec. LLM response: SPEC_SELECTION_FAILED" }] }

/-- A run positioned at `FindAndPrepareApi`: the current task has a
selected spec. -/
def shPrep : Shared :=
  { user_query := "q", loaded_specs := [("widget.yaml", specInfoW)],
    sub_tasks := [{ mkTask 1 "Get widget" with selected_spec_id := some "widget.yaml" }],
    task_results := [], current_task_id := some 1, final_summary := none }

/-- Like `shPrep` but the selected spec declares no servers. -/
def shPrepNoServers : Shared :=
  { user_query := "q", loaded_specs := [("widget.yaml", specInfoNoServers)],
    sub_tasks := [{ mkTask 1 "Get widget" with selected_spec_id := some "widget.yaml" }],
    task_results := [], current_task_id := some 1, final_summary := none }

/-- A prepared request descriptor. -/
def apiDetailsW : ApiDetails :=
  { method := "GET", url := some "https://api.example.com/items/42", headers := [],
    params := [], body := none }

/-- A finished task. -/
def taskDone : AgentTask :=
  { id := 1, description := "Get widget", status := .completed,
    selected_spec_id := some "widget.yaml", api_details := some apiDetailsW,
    result := some "widget body", error := none }

/-- A run whose single task is already completed. -/
def shDone : Shared :=
  { user_query := "q", loaded_specs := [("widget.yaml", specInfoW)],
    sub_tasks := [taskDone], task_results := [(1, some "widget body")],
    current_task_id := some 1, final_summary := none }

/-- A task carrying a prepared descriptor. -/
def taskExec : AgentTask :=
  { id := 1, description := "Get widget", status := .pending,
    selected_spec_id := some "widget.yaml", api_details := some apiDetailsW,
    result := none, error := none }

def shExec : Shared :=
  { user_query := "q", loaded_specs := [("widget.yaml", specInfoW)],
    sub_tasks := [taskExec],
    task_results := [], current_task_id := some 1, final_summary := none }

/-- A 404 outcome from the request executor. -/
def api404 : ApiResult :=
  { status_code := some 404, body := some "Not Found", error := some "Request failed: 404 Client Error" }

/-- A 200 outcome from the request executor. -/
def api200 : ApiResult :=
  { status_code := some 200, body := some "widget body", error := none }

/-- A structured block whose path template mentions a parameter that is
absent from the path-parameter binding. -/
def detailsUnlisted : ParsedDetails :=
  { method := "get", path := "/items/\x7bid\x7d", server_base_url := "https://api.example.com",
    paramsPath := [], paramsQuery := [], paramsHeader := [], body := none }

/-- A fully resolvable structured block. -/
def detailsGood : ParsedDetails :=
  { method := "get", path := "/items/\x7bid\x7d", server_base_url := "https://api.example.com",
    paramsPath := [("id", "42")], paramsQuery := [], paramsHeader := [], body := none }

/-- A block with an unresolved path parameter and no base URL anywhere. -/
def detailsFillNoBase : ParsedDetails :=
  { method := "get", path := "/users/\x7buserId\x7d", server_base_url := "",
    paramsPath := [("userId", "<FILL_ME>")], paramsQuery := [], paramsHeader := [], body := none }

/-- A block with an unresolved path parameter but a usable base URL. -/
def detailsFill : ParsedDetails :=
  { method := "get", path := "/users/\x7buserId\x7d", server_base_url := "https://api.example.com",
    paramsPath := [("userId", "<FILL_ME>")], paramsQuery := [], paramsHeader := [], body := none }

/-- The descriptor the preparer builds from `detailsUnlisted`: the template
parameter stays in the URL. -/
def detailsUnlistedApi : ApiDetails :=
  { method := "GET", url := some "https://api.example.com/items/\x7bid\x7d",
    headers := [], params := [], body := none }

/-- `shPrep` after the preparer stored `detailsUnlistedApi`. -/
def shPrepAfterUnlisted : Shared :=
  { user_query := "q", loaded_specs := [("widget.yaml", specInfoW)],
    sub_tasks := [{ id := 1, description := "Get widget", status := .pending,
                    selected_spec_id := some "widget.yaml",
                    api_details := some detailsUnlistedApi, result := none, error := none }],
    task_results := [], current_task_id := some 1, final_summary := none }

/-- The descriptor the preparer builds from `detailsGood`. -/
def detailsGoodApi : ApiDetails :=
  { method := "GET", url := some "https://api.example.com/items/42",
    headers := [], params := [], body := none }

/-- `shPrep` after the preparer stored `detailsGoodApi`. -/
def shPrepAfterGood : Shared :=
  { user_query := "q", loaded_specs := [("widget.yaml", specInfoW)],
    sub_tasks := [{ id := 1, description := "Get widget", status := .pending,
                    selected_spec_id := some "widget.yaml",
                    api_details := some detailsGoodApi, result := none, error := none }],
    task_results := [], current_task_id := some 1, final_summary := none }

/-- A structured block whose path template uses the double-brace
convention. -/
def detailsDouble : ParsedDetails :=
  { method := "get", path := "/items/\x7b\x7bid\x7d\x7d",
    server_base_url := "https://api.example.com",
    paramsPath := [("id", "42")], paramsQuery := [], paramsHeader := [], body := none }

/-- `shPrepNoServers` after preparation failed for want of a base URL. -/
def shPrepNoSrvAfter : Shared :=
  { user_query := "q", loaded_specs := [("widget.yaml", specInfoNoServers)],
    sub_tasks := [{ id := 1, description := "Get widget", status := .error,
                    selected_spec_id := some "widget.yaml", api_details := none,
                    result := none,
                    error := some "Could not determine server base URL from LLM or spec." }],
    task_results := [], current_task_id := some 1, final_summary := none }

/-! ### Task-list lemmas -/

theorem isPending_iff (t : AgentTask) : t.isPending = true ↔ t.status = .pending := by
  cases h : t.status <;> simp [AgentTask.isPending, h]

theorem pendingCount_zero_of_firstPending_none {l : List AgentTask}
    (h : firstPending l = none) : pendingCount l = 0 := by
  unfold firstPending at h
  rw [List.find?_eq_none] at h
  unfold pendingCount
  rw [List.filter_eq_nil_iff.mpr h]
  rfl

theorem findById_cons (a : AgentTask) (tl : List AgentTask) (i : Nat) :
    findById (a :: tl) i = if a.id = i then some a else findById tl i := by
  by_cases h : a.id = i
  · rw [if_pos h]
    exact List.find?_cons_of_pos _ (by simp [h])
  · rw [if_neg h]
    exact List.find?_cons_of_neg _ (by simp [h])

theorem firstPending_isPending {l : List AgentTask} {t : AgentTask}
    (h : firstPending l = some t) : t.isPending = true :=
  List.find?_some h

theorem firstPending_mem {l : List AgentTask} {t : AgentTask}
    (h : firstPending l = some t) : t ∈ l :=
  List.mem_of_find?_eq_some h

theorem findById_id {l : List AgentTask} {i : Nat} {t : AgentTask}
    (h : findById l i = some t) : t.id = i := by
  have := List.find?_some h
  simpa using this

theorem findById_mem {l : List AgentTask} {i : Nat} {t : AgentTask}
    (h : findById l i = some t) : t ∈ l :=
  List.mem_of_find?_eq_some h

theorem findById_of_mem_nodup {l : List AgentTask}
    (hnd : (l.map AgentTask.id).Nodup) {t : AgentTask} (ht : t ∈ l) :
    findById l t.id = some t := by
  induction l with
  | nil => cases ht
  | cons a tl ih =>
    rcases List.mem_cons.mp ht with h | h
    · subst h
      simp [findById, List.find?]
    · have hne : a.id ≠ t.id := by
        intro he
        have : t.id ∈ tl.map AgentTask.id := List.mem_map_of_mem _ h
        rw [← he] at this
        exact (List.nodup_cons.mp hnd).1 this
      have : findById tl t.id = some t :=
        ih (List.nodup_cons.mp hnd).2 h
      simpa [findById_cons, hne] using this

theorem firstPending_findById {l : List AgentTask}
    (hnd : (l.map AgentTask.id).Nodup) {t : AgentTask}
    (h : firstPending l = some t) : findById l t.id = some t :=
  findById_of_mem_nodup hnd (firstPending_mem h)

theorem updateById_map_id {l : List AgentTask} {i : Nat} {f : AgentTask → AgentTask}
    (hid : ∀ u, (f u).id = u.id) :
    (updateById l i f).map AgentTask.id = l.map AgentTask.id := by
  induction l with
  | nil => rfl
  | cons a tl ih =>
    by_cases h : a.id = i <;> simp [updateById, h, hid, ih]

theorem findById_updateById {l : List AgentTask} {i : Nat} {t : AgentTask}
    {f : AgentTask → AgentTask} (h : findById l i = some t)
    (hid : ∀ u, (f u).id = u.id) :
    findById (updateById l i f) i = some (f t) := by
  induction l with
  | nil => simp [findById, List.find?] at h
  | cons a tl ih =>
    by_cases ha : a.id = i
    · have ht : t = a := by
        simpa [findById_cons, ha] using h.symm
      subst ht
      simp [findById_cons, updateById, ha, hid]
    · have h' : findById tl i = some t := by
        simpa [findById_cons, ha] using h
      simpa [findById_cons, updateById, ha, hid] using ih h'

theorem pendingCount_updateById_dec {l : List AgentTask} {i : Nat} {t : AgentTask}
    {f : AgentTask → AgentTask} (h : findById l i = some t)
    (hp : t.isPending = true) (hf : (f t).isPending = false) :
    pendingCount (updateById l i f) + 1 = pendingCount l := by
  induction l with
  | nil => simp [findById, List.find?] at h
  | cons a tl ih =>
    by_cases ha : a.id = i
    · have ht : t = a := by
        simpa [findById_cons, ha] using h.symm
      subst ht
      simp [updateById, ha, pendingCount, List.filter, hf, hp]
    · have h' : findById tl i = some t := by
        simpa [findById_cons, ha] using h
      have := ih h'
      by_cases hap : a.isPending <;>
        simp [updateById, ha, pendingCount, List.filter, hap] at this ⊢ <;> omega

theorem pendingCount_updateById_same {l : List AgentTask} {i : Nat}
    {f : AgentTask → AgentTask} (hf : ∀ u, (f u).isPending = u.isPending) :
    pendingCount (updateById l i f) = pendingCount l := by
  induction l with
  | nil => rfl
  | cons a tl ih =>
    by_cases ha : a.id = i
    · by_cases hap : a.isPending <;>
        simp [updateById, ha, pendingCount, List.filter, hf, hap]
    · by_cases hap : a.isPending <;>
        simp [updateById, ha, pendingCount, List.filter, hap] at ih ⊢ <;> omega

theorem pendingCount_pos {l : List AgentTask} {i : Nat} {t : AgentTask}
    (h : findById l i = some t) (hp : t.isPending = true) :
    1 ≤ pendingCount l := by
  have hm : t ∈ l.filter AgentTask.isPending :=
    List.mem_filter.mpr ⟨findById_mem h, hp⟩
  have := List.length_pos.mpr (List.ne_nil_of_mem hm)
  simpa [pendingCount] using this

theorem pendingCount_le_length (l : List AgentTask) : pendingCount l ≤ l.length :=
  List.length_filter_le _ _

/-! ### Step-outcome characterizations -/

theorem selectSpecStep_exhausted {sh : Shared} (llm : String)
    (h : firstPending sh.sub_tasks = none) :
    selectSpecStep sh llm = .ok (sh, some "summarize") := by
  simp [selectSpecStep, h]

theorem selectSpecStep_noSpecs {sh : Shared} (llm : String) {t : AgentTask}
    (h : firstPending sh.sub_tasks = some t) (hls : sh.loaded_specs.isEmpty = true) :
    selectSpecStep sh llm =
      .error ("No loaded OpenAPI specs found in shared store to select from.",
        { sh with current_task_id := some t.id }) := by
  simp [selectSpecStep, h, hls]

theorem selectSpecStep_invalid {sh : Shared} {llm : String} {t : AgentTask}
    (hnd : (sh.sub_tasks.map AgentTask.id).Nodup)
    (h : firstPending sh.sub_tasks = some t) (hls : sh.loaded_specs.isEmpty = false)
    (h0 : t.id ≠ 0)
    (hval : (SelectSpec.exec llm == "SPEC_SELECTION_FAILED"
              || !(dictHas sh.loaded_specs (SelectSpec.exec llm))) = true) :
    selectSpecStep sh llm =
      .ok ({ sh with
               current_task_id := some t.id
               sub_tasks := updateById sh.sub_tasks t.id (fun u =>
                 { u with
                     status := .error
                     error := some ("Failed to select a valid spec. LLM response: "
                       ++ SelectSpec.exec llm) }) },
           some "process_task_loop") := by
  have hfind : findById sh.sub_tasks t.id = some t := firstPending_findById hnd h
  simp [selectSpecStep, SelectSpec.post, h, hls, h0, hfind, hval]

theorem selectSpecStep_valid {sh : Shared} {llm : String} {t : AgentTask}
    (hnd : (sh.sub_tasks.map AgentTask.id).Nodup)
    (h : firstPending sh.sub_tasks = some t) (hls : sh.loaded_specs.isEmpty = false)
    (h0 : t.id ≠ 0)
    (hval : (SelectSpec.exec llm == "SPEC_SELECTION_FAILED"
              || !(dictHas sh.loaded_specs (SelectSpec.exec llm))) = false) :
    selectSpecStep sh llm =
      .ok ({ sh with
               current_task_id := some t.id
               sub_tasks := updateById sh.sub_tasks t.id (fun u =>
                 { u with selected_spec_id := some (SelectSpec.exec llm) }) },
           some "spec_selected") := by
  have hfind : findById sh.sub_tasks t.id = some t := firstPending_findById hnd h
  simp [selectSpecStep, SelectSpec.post, h, hls, h0, hfind, hval]

theorem findPrepStep_eq {sh : Shared} (llm : String) (parse : Except String ParsedDetails)
    {cid : Nat} {t : AgentTask} {sid : String} {info : SpecInfo}
    (hcur : sh.current_task_id = some cid) (h0 : cid ≠ 0)
    (hfind : findById sh.sub_tasks cid = some t)
    (hsel : t.selected_spec_id = some sid) (hsid : sid ≠ "")
    (hdg : dictGet sh.loaded_specs sid = some info) :
    findPrepStep sh llm parse = findPrepPost sh (findPrepExec llm parse info.parsed) := by
  simp [findPrepStep, hcur, h0, hfind, hsel, hsid, hdg]

theorem findPrepPost_err {sh : Shared} {cid : Nat} {t : AgentTask} (m : String)
    (hcur : sh.current_task_id = some cid)
    (hfind : findById sh.sub_tasks cid = some t) :
    findPrepPost sh (.err m) =
      .ok ({ sh with sub_tasks := updateById sh.sub_tasks cid (fun u =>
              { u with status := .error, error := some m }) },
           some "process_task_loop") := by
  simp [findPrepPost, hcur, hfind]

theorem selectSpecStep_zeroId {sh : Shared} (llm : String) {t : AgentTask}
    (h : firstPending sh.sub_tasks = some t) (hls : sh.loaded_specs.isEmpty = false)
    (h0 : t.id = 0) :
    selectSpecStep sh llm =
      .error ("current_task_id missing in shared store during SelectSpec post.",
        { sh with current_task_id := some t.id }) := by
  simp [selectSpecStep, SelectSpec.post, h, hls, h0]

theorem findPrepPost_badUrl {sh : Shared} {cid : Nat} {t : AgentTask} {d : ApiDetails}
    (hcur : sh.current_task_id = some cid)
    (hfind : findById sh.sub_tasks cid = some t)
    (hu : d.url = none ∨ d.url = some "") :
    findPrepPost sh (.ok d) =
      .ok ({ sh with sub_tasks := updateById sh.sub_tasks cid (fun u =>
              { u with status := .error,
                       error := some ("Invalid API details prepared: " ++ apiDetailsRepr d) }) },
           some "process_task_loop") := by
  rcases hu with hu | hu <;> simp [findPrepPost, hcur, hfind, hu]

theorem findPrepPost_store {sh : Shared} {cid : Nat} {t : AgentTask} {d : ApiDetails}
    (hcur : sh.current_task_id = some cid)
    (hfind : findById sh.sub_tasks cid = some t)
    (hu1 : d.url ≠ none) (hu2 : d.url ≠ some "") :
    findPrepPost sh (.ok d) =
      .ok ({ sh with sub_tasks := updateById sh.sub_tasks cid (fun u =>
              { u with api_details := some d }) },
           some "execute") := by
  simp [findPrepPost, hcur, hfind, hu1, hu2]

theorem step_node_eq (sh : Shared) (i : StepInput) (n : NodeId)
    (hn : n = .selectSpec ∨ n = .findPrep ∨ n = .executeAPI) :
    step ⟨n, sh⟩ i =
      (match nodeRun n sh i with
       | .error e => { node := .crashed, shared := e.2 }
       | .ok (sh', none) => { node := .terminated, shared := sh' }
       | .ok (sh', some a) =>
         match flowNext n a with
         | some n' => { node := n', shared := sh' }
         | none => { node := .terminated, shared := sh' }) := by
  rcases hn with h | h | h <;> subst h <;> rfl

theorem step_summarize (sh : Shared) (i : StepInput) :
    step ⟨.summarize, sh⟩ i =
      { node := .terminated,
        shared := { sh with final_summary := some (SummarizeResults.exec (formatResults sh) i.llm) } } :=
  rfl

theorem step_of_done {c : Config} (h : Done c) (i : StepInput) : step c i = c := by
  rcases h with h | h <;>
    · obtain ⟨n, sh⟩ := c
      simp only at h
      subst h
      rfl

theorem run_of_done {c : Config} (h : Done c) (stream : Nat → StepInput) (k : Nat) :
    run stream k c = c := by
  induction k generalizing stream with
  | zero => rfl
  | succ k ih => rw [run, step_of_done h, ih]

theorem done_run_of_done {c : Config} (h : Done c) (stream : Nat → StepInput) (k : Nat) :
    Done (run stream k c) := by
  rw [run_of_done h]; exact h

theorem selectCount_of_done {c : Config} (h : Done c) (stream : Nat → StepInput) (k : Nat) :
    selectCount stream k c = 0 := by
  induction k generalizing stream with
  | zero => rfl
  | succ k ih =>
    have hns : c.node ≠ .selectSpec := by
      rcases h with h | h <;> rw [h] <;> intro hc <;> cases hc
    rw [selectCount, step_of_done h, ih, if_neg hns]

/-- Progress at the Task Selector: well-formedness is preserved, the
measure drops, the pending count never grows, and it strictly drops
whenever the engine comes back to the selector. -/
theorem progress_selectSpec (sh : Shared) (i : StepInput)
    (hnd : (sh.sub_tasks.map AgentTask.id).Nodup) :
    WF (step ⟨.selectSpec, sh⟩ i) ∧
      mu (step ⟨.selectSpec, sh⟩ i) < mu ⟨.selectSpec, sh⟩ ∧
      pendingCount (step ⟨.selectSpec, sh⟩ i).shared.sub_tasks ≤ pendingCount sh.sub_tasks ∧
      ((step ⟨.selectSpec, sh⟩ i).node = .selectSpec →
        pendingCount (step ⟨.selectSpec, sh⟩ i).shared.sub_tasks < pendingCount sh.sub_tasks) := by
  have hmu0 : mu ⟨.selectSpec, sh⟩ = 3 * pendingCount sh.sub_tasks + 3 := rfl
  cases hfp : firstPending sh.sub_tasks with
  | none =>
    have hstep : step ⟨.selectSpec, sh⟩ i = ⟨.summarize, sh⟩ := by
      rw [step_node_eq _ _ _ (Or.inl rfl)]
      simp [nodeRun, selectSpecStep_exhausted i.llm hfp, flowNext]
    rw [hstep]
    exact ⟨⟨hnd, by simp⟩, by simp [mu, rank], le_refl _, by simp⟩
  | some t =>
    have hp : t.isPending = true := firstPending_isPending hfp
    have hfind : findById sh.sub_tasks t.id = some t := firstPending_findById hnd hfp
    have hpos : 1 ≤ pendingCount sh.sub_tasks := pendingCount_pos hfind hp
    cases hls : sh.loaded_specs.isEmpty with
    | true =>
      have hstep : step ⟨.selectSpec, sh⟩ i =
          ⟨.crashed, { sh with current_task_id := some t.id }⟩ := by
        rw [step_node_eq _ _ _ (Or.inl rfl)]
        simp [nodeRun, selectSpecStep_noSpecs i.llm hfp hls]
      rw [hstep]
      exact ⟨⟨hnd, by simp⟩, by simp [mu, rank], le_refl _, by simp⟩
    | false =>
      by_cases h0 : t.id = 0
      · have hstep : step ⟨.selectSpec, sh⟩ i =
            ⟨.crashed, { sh with current_task_id := some t.id }⟩ := by
          rw [step_node_eq _ _ _ (Or.inl rfl)]
          simp [nodeRun, selectSpecStep_zeroId i.llm hfp hls h0]
        rw [hstep]
        exact ⟨⟨hnd, by simp⟩, by simp [mu, rank], le_refl _, by simp⟩
      · cases hval : (SelectSpec.exec i.llm == "SPEC_SELECTION_FAILED"
            || !(dictHas sh.loaded_specs (SelectSpec.exec i.llm))) with
        | true =>
          have hstep : step ⟨.selectSpec, sh⟩ i =
              ⟨.selectSpec,
                { sh with
                    current_task_id := some t.id
                    sub_tasks := updateById sh.sub_tasks t.id (fun u =>
                      { u with
                          status := .error
                          error := some ("Failed to select a valid spec. LLM response: "
                            ++ SelectSpec.exec i.llm) }) }⟩ := by
            rw [step_node_eq _ _ _ (Or.inl rfl)]
            simp [nodeRun, selectSpecStep_invalid hnd hfp hls h0 hval, flowNext]
          have hdec : pendingCount (step ⟨.selectSpec, sh⟩ i).shared.sub_tasks + 1
              = pendingCount sh.sub_tasks := by
            rw [hstep]
            exact pendingCount_updateById_dec hfind hp rfl
          have hmu : mu (step ⟨.selectSpec, sh⟩ i)
              = 3 * pendingCount (step ⟨.selectSpec, sh⟩ i).shared.sub_tasks + 3 := by
            rw [hstep]
            rfl
          refine ⟨?_, ?_, ?_, ?_⟩
          · rw [hstep]
            refine ⟨?_, by simp⟩
            have hmap := @updateById_map_id sh.sub_tasks t.id
              (fun u =>
                { u with
                    status := .error
                    error := some ("Failed to select a valid spec. LLM response: "
                      ++ SelectSpec.exec i.llm) })
              (fun _ => rfl)
            simpa [hmap] using hnd
          · rw [hmu, hmu0]
            omega
          · omega
          · intro _
            omega
        | false =>
          have hstep : step ⟨.selectSpec, sh⟩ i =
              ⟨.findPrep,
                { sh with
                    current_task_id := some t.id
                    sub_tasks := updateById sh.sub_tasks t.id (fun u =>
                      { u with selected_spec_id := some (SelectSpec.exec i.llm) }) }⟩ := by
            rw [step_node_eq _ _ _ (Or.inl rfl)]
            simp [nodeRun, selectSpecStep_valid hnd hfp hls h0 hval, flowNext]
          have hsame : pendingCount (step ⟨.selectSpec, sh⟩ i).shared.sub_tasks
              = pendingCount sh.sub_tasks := by
            rw [hstep]
            exact pendingCount_updateById_same (fun u => rfl)
          have hmu : mu (step ⟨.selectSpec, sh⟩ i)
              = 3 * pendingCount (step ⟨.selectSpec, sh⟩ i).shared.sub_tasks + 2 := by
            rw [hstep]
            rfl
          refine ⟨?_, ?_, ?_, ?_⟩
          · rw [hstep]
            refine ⟨?_, ?_⟩
            · have hmap := @updateById_map_id sh.sub_tasks t.id
                (fun u => { u with selected_spec_id := some (SelectSpec.exec i.llm) })
                (fun _ => rfl)
              simpa [hmap] using hnd
            · intro _
              refine ⟨t.id, { t with selected_spec_id := some (SelectSpec.exec i.llm) },
                rfl, ?_, ?_⟩
              · exact @findById_updateById sh.sub_tasks t.id t
                  (fun u => { u with selected_spec_id := some (SelectSpec.exec i.llm) })
                  hfind (fun _ => rfl)
              · exact (isPending_iff t).mp hp
          · rw [hmu, hmu0]
            omega
          · omega
          · intro hc
            rw [hstep] at hc
            simp at hc

theorem executeApiStep_eq {sh : Shared} (api : ApiResult)
    {cid : Nat} {t : AgentTask} {d : ApiDetails} {u : String}
    (hcur : sh.current_task_id = some cid) (h0 : cid ≠ 0)
    (hfind : findById sh.sub_tasks cid = some t)
    (hd : t.api_details = some d) (hu : d.url = some u) (hne : u ≠ "") :
    executeApiStep sh api =
      (if isSuccess api then
        .ok ({ sh with
                sub_tasks := updateById sh.sub_tasks cid (fun t0 =>
                  { t0 with status := .completed, result := api.body, error := none }),
                task_results := dictSetNat sh.task_results cid api.body },
             some "process_task_loop")
      else
        .ok ({ sh with sub_tasks := updateById sh.sub_tasks cid (fun t0 =>
                { t0 with status := .error, result := none,
                          error := some (execFullError api) }) },
             some "process_task_loop")) := by
  by_cases hs : isSuccess api <;>
    simp [executeApiStep, hcur, h0, hfind, hd, hu, hne, hs]


/-- Progress at the Request Preparer. -/
theorem progress_findPrep (sh : Shared) (i : StepInput)
    (hnd : (sh.sub_tasks.map AgentTask.id).Nodup) (cid : Nat) (t : AgentTask)
    (hcur : sh.current_task_id = some cid)
    (hfind : findById sh.sub_tasks cid = some t)
    (hpend : t.status = .pending) :
    WF (step ⟨.findPrep, sh⟩ i) ∧
      mu (step ⟨.findPrep, sh⟩ i) < mu ⟨.findPrep, sh⟩ ∧
      pendingCount (step ⟨.findPrep, sh⟩ i).shared.sub_tasks ≤ pendingCount sh.sub_tasks ∧
      ((step ⟨.findPrep, sh⟩ i).node = .selectSpec →
        pendingCount (step ⟨.findPrep, sh⟩ i).shared.sub_tasks < pendingCount sh.sub_tasks) := by
  have hmu0 : mu ⟨.findPrep, sh⟩ = 3 * pendingCount sh.sub_tasks + 2 := rfl
  have hp : t.isPending = true := (isPending_iff t).mpr hpend
  have hpos : 1 ≤ pendingCount sh.sub_tasks := pendingCount_pos hfind hp
  by_cases h0 : cid = 0
  · have hstep : step ⟨.findPrep, sh⟩ i = ⟨.crashed, sh⟩ := by
      rw [step_node_eq _ _ _ (Or.inr (Or.inl rfl))]
      simp [nodeRun, findPrepStep, hcur, h0]
    rw [hstep]
    exact ⟨⟨hnd, by simp⟩, by simp [mu, rank], le_refl _, by simp⟩
  · cases hsel : t.selected_spec_id with
    | none =>
      have hstep : step ⟨.findPrep, sh⟩ i = ⟨.crashed, sh⟩ := by
        rw [step_node_eq _ _ _ (Or.inr (Or.inl rfl))]
        simp [nodeRun, findPrepStep, hcur, h0, hfind, hsel]
      rw [hstep]
      exact ⟨⟨hnd, by simp⟩, by simp [mu, rank], le_refl _, by simp⟩
    | some sid =>
      by_cases hsid : sid = ""
      · have hstep : step ⟨.findPrep, sh⟩ i = ⟨.crashed, sh⟩ := by
          rw [step_node_eq _ _ _ (Or.inr (Or.inl rfl))]
          simp [nodeRun, findPrepStep, hcur, h0, hfind, hsel, hsid]
        rw [hstep]
        exact ⟨⟨hnd, by simp⟩, by simp [mu, rank], le_refl _, by simp⟩
      · cases hdg : dictGet sh.loaded_specs sid with
        | none =>
          have hstep : step ⟨.findPrep, sh⟩ i = ⟨.crashed, sh⟩ := by
            rw [step_node_eq _ _ _ (Or.inr (Or.inl rfl))]
            simp [nodeRun, findPrepStep, hcur, h0, hfind, hsel, hsid, hdg]
          rw [hstep]
          exact ⟨⟨hnd, by simp⟩, by simp [mu, rank], le_refl _, by simp⟩
        | some info =>
          have heq : findPrepStep sh i.llm i.parse
              = findPrepPost sh (findPrepExec i.llm i.parse info.parsed) :=
            findPrepStep_eq i.llm i.parse hcur h0 hfind hsel hsid hdg
          cases hfr : findPrepExec i.llm i.parse info.parsed with
          | err m =>
            have hstep : step ⟨.findPrep, sh⟩ i =
                ⟨.selectSpec,
                  { sh with sub_tasks := updateById sh.sub_tasks cid (fun u =>
                      { u with status := .error, error := some m }) }⟩ := by
              rw [step_node_eq _ _ _ (Or.inr (Or.inl rfl))]
              simp [nodeRun, heq, hfr, findPrepPost_err m hcur hfind, flowNext]
            have hdec : pendingCount (step ⟨.findPrep, sh⟩ i).shared.sub_tasks + 1
                = pendingCount sh.sub_tasks := by
              rw [hstep]
              exact pendingCount_updateById_dec hfind hp rfl
            have hmu : mu (step ⟨.findPrep, sh⟩ i)
                = 3 * pendingCount (step ⟨.findPrep, sh⟩ i).shared.sub_tasks + 3 := by
              rw [hstep]
              rfl
            refine ⟨?_, ?_, ?_, ?_⟩
            · rw [hstep]
              refine ⟨?_, by simp⟩
              have hmap := @updateById_map_id sh.sub_tasks cid
                (fun u => { u with status := .error, error := some m }) (fun _ => rfl)
              simpa [hmap] using hnd
            · rw [hmu, hmu0]
              omega
            · omega
            · intro _
              omega
          | ok d =>
            by_cases hu : d.url = none ∨ d.url = some ""
            · have hstep : step ⟨.findPrep, sh⟩ i =
                  ⟨.selectSpec,
                    { sh with sub_tasks := updateById sh.sub_tasks cid (fun u =>
                        { u with
                            status := .error
                            error := some ("Invalid API details prepared: "
                              ++ apiDetailsRepr d) }) }⟩ := by
                rw [step_node_eq _ _ _ (Or.inr (Or.inl rfl))]
                simp [nodeRun, heq, hfr, findPrepPost_badUrl hcur hfind hu, flowNext]
              have hdec : pendingCount (step ⟨.findPrep, sh⟩ i).shared.sub_tasks + 1
                  = pendingCount sh.sub_tasks := by
                rw [hstep]
                exact pendingCount_updateById_dec hfind hp rfl
              have hmu : mu (step ⟨.findPrep, sh⟩ i)
                  = 3 * pendingCount (step ⟨.findPrep, sh⟩ i).shared.sub_tasks + 3 := by
                rw [hstep]
                rfl
              refine ⟨?_, ?_, ?_, ?_⟩
              · rw [hstep]
                refine ⟨?_, by simp⟩
                have hmap := @updateById_map_id sh.sub_tasks cid
                  (fun u =>
                    { u with
                        status := .error
                        error := some ("Invalid API details prepared: " ++ apiDetailsRepr d) })
                  (fun _ => rfl)
                simpa [hmap] using hnd
              · rw [hmu, hmu0]
                omega
              · omega
              · intro _
                omega
            · obtain ⟨hu1, hu2⟩ := not_or.mp hu
              have hstep : step ⟨.findPrep, sh⟩ i =
                  ⟨.executeAPI,
                    { sh with sub_tasks := updateById sh.sub_tasks cid (fun u =>
                        { u with api_details := some d }) }⟩ := by
                rw [step_node_eq _ _ _ (Or.inr (Or.inl rfl))]
                simp [nodeRun, heq, hfr, findPrepPost_store hcur hfind hu1 hu2, flowNext]
              have hsame : pendingCount (step ⟨.findPrep, sh⟩ i).shared.sub_tasks
                  = pendingCount sh.sub_tasks := by
                rw [hstep]
                exact pendingCount_updateById_same (fun u => rfl)
              have hmu : mu (step ⟨.findPrep, sh⟩ i)
                  = 3 * pendingCount (step ⟨.findPrep, sh⟩ i).shared.sub_tasks + 1 := by
                rw [hstep]
                rfl
              refine ⟨?_, ?_, ?_, ?_⟩
              · rw [hstep]
                refine ⟨?_, ?_⟩
                · have hmap := @updateById_map_id sh.sub_tasks cid
                    (fun u => { u with api_details := some d }) (fun _ => rfl)
                  simpa [hmap] using hnd
                · intro _
                  refine ⟨cid, { t with api_details := some d }, hcur, ?_, hpend⟩
                  exact @findById_updateById sh.sub_tasks cid t
                    (fun u => { u with api_details := some d }) hfind (fun _ => rfl)
              · rw [hmu, hmu0]
                omega
              · omega
              · intro hc
                rw [hstep] at hc
                simp at hc

/-- Progress at the Request Runner. -/
theorem progress_executeAPI (sh : Shared) (i : StepInput)
    (hnd : (sh.sub_tasks.map AgentTask.id).Nodup) (cid : Nat) (t : AgentTask)
    (hcur : sh.current_task_id = some cid)
    (hfind : findById sh.sub_tasks cid = some t)
    (hpend : t.status = .pending) :
    WF (step ⟨.executeAPI, sh⟩ i) ∧
      mu (step ⟨.executeAPI, sh⟩ i) < mu ⟨.executeAPI, sh⟩ ∧
      pendingCount (step ⟨.executeAPI, sh⟩ i).shared.sub_tasks ≤ pendingCount sh.sub_tasks ∧
      ((step ⟨.executeAPI, sh⟩ i).node = .selectSpec →
        pendingCount (step ⟨.executeAPI, sh⟩ i).shared.sub_tasks < pendingCount sh.sub_tasks) := by
  have hmu0 : mu ⟨.executeAPI, sh⟩ = 3 * pendingCount sh.sub_tasks + 1 := rfl
  have hp : t.isPending = true := (isPending_iff t).mpr hpend
  have hpos : 1 ≤ pendingCount sh.sub_tasks := pendingCount_pos hfind hp
  by_cases h0 : cid = 0
  · have hstep : step ⟨.executeAPI, sh⟩ i = ⟨.crashed, sh⟩ := by
      rw [step_node_eq _ _ _ (Or.inr (Or.inr rfl))]
      simp [nodeRun, executeApiStep, hcur, h0]
    rw [hstep]
    exact ⟨⟨hnd, by simp⟩, by simp [mu, rank], le_refl _, by simp⟩
  · cases hd : t.api_details with
    | none =>
      have hstep : step ⟨.executeAPI, sh⟩ i = ⟨.crashed, sh⟩ := by
        rw [step_node_eq _ _ _ (Or.inr (Or.inr rfl))]
        simp [nodeRun, executeApiStep, hcur, h0, hfind, hd]
      rw [hstep]
      exact ⟨⟨hnd, by simp⟩, by simp [mu, rank], le_refl _, by simp⟩
    | some d =>
      cases hurl : d.url with
      | none =>
        have hstep : step ⟨.executeAPI, sh⟩ i = ⟨.crashed, sh⟩ := by
          rw [step_node_eq _ _ _ (Or.inr (Or.inr rfl))]
          simp [nodeRun, executeApiStep, hcur, h0, hfind, hd, hurl]
        rw [hstep]
        exact ⟨⟨hnd, by simp⟩, by simp [mu, rank], le_refl _, by simp⟩
      | some u =>
        by_cases hne : u = ""
        · have hstep : step ⟨.executeAPI, sh⟩ i = ⟨.crashed, sh⟩ := by
            rw [step_node_eq _ _ _ (Or.inr (Or.inr rfl))]
            simp [nodeRun, executeApiStep, hcur, h0, hfind, hd, hurl, hne]
          rw [hstep]
          exact ⟨⟨hnd, by simp⟩, by simp [mu, rank], le_refl _, by simp⟩
        · cases hs : isSuccess i.api with
          | true =>
            have hstep : step ⟨.executeAPI, sh⟩ i =
                ⟨.selectSpec,
                  { sh with
                      sub_tasks := updateById sh.sub_tasks cid (fun t0 =>
                        { t0 with status := .completed, result := i.api.body, error := none })
                      task_results := dictSetNat sh.task_results cid i.api.body }⟩ := by
              rw [step_node_eq _ _ _ (Or.inr (Or.inr rfl))]
              simp [nodeRun, executeApiStep_eq i.api hcur h0 hfind hd hurl hne, hs, flowNext]
            have hdec : pendingCount (step ⟨.executeAPI, sh⟩ i).shared.sub_tasks + 1
                = pendingCount sh.sub_tasks := by
              rw [hstep]
              exact pendingCount_updateById_dec hfind hp rfl
            have hmu : mu (step ⟨.executeAPI, sh⟩ i)
                = 3 * pendingCount (step ⟨.executeAPI, sh⟩ i).shared.sub_tasks + 3 := by
              rw [hstep]
              rfl
            refine ⟨?_, ?_, ?_, ?_⟩
            · rw [hstep]
              refine ⟨?_, by simp⟩
              have hmap := @updateById_map_id sh.sub_tasks cid
                (fun t0 => { t0 with status := .completed, result := i.api.body, error := none })
                (fun _ => rfl)
              simpa [hmap] using hnd
            · rw [hmu, hmu0]
              omega
            · omega
            · intro _
              omega
          | false =>
            have hstep : step ⟨.executeAPI, sh⟩ i =
                ⟨.selectSpec,
                  { sh with sub_tasks := updateById sh.sub_tasks cid (fun t0 =>
                      { t0 with
                          status := .error
                          result := none
                          error := some (execFullError i.api) }) }⟩ := by
              rw [step_node_eq _ _ _ (Or.inr (Or.inr rfl))]
              simp [nodeRun, executeApiStep_eq i.api hcur h0 hfind hd hurl hne, hs, flowNext]
            have hdec : pendingCount (step ⟨.executeAPI, sh⟩ i).shared.sub_tasks + 1
                = pendingCount sh.sub_tasks := by
              rw [hstep]
              exact pendingCount_updateById_dec hfind hp rfl
            have hmu : mu (step ⟨.executeAPI, sh⟩ i)
                = 3 * pendingCount (step ⟨.executeAPI, sh⟩ i).shared.sub_tasks + 3 := by
              rw [hstep]
              rfl
            refine ⟨?_, ?_, ?_, ?_⟩
            · rw [hstep]
              refine ⟨?_, by simp⟩
              have hmap := @updateById_map_id sh.sub_tasks cid
                (fun t0 =>
                  { t0 with
                      status := .error
                      result := none
                      error := some (execFullError i.api) })
                (fun _ => rfl)
              simpa [hmap] using hnd
            · rw [hmu, hmu0]
              omega
            · omega
            · intro _
              omega

/-- Progress at the Result Synthesizer. -/
theorem progress_summarize (sh : Shared) (i : StepInput)
    (hnd : (sh.sub_tasks.map AgentTask.id).Nodup) :
    WF (step ⟨.summarize, sh⟩ i) ∧
      mu (step ⟨.summarize, sh⟩ i) < mu ⟨.summarize, sh⟩ ∧
      pendingCount (step ⟨.summarize, sh⟩ i).shared.sub_tasks ≤ pendingCount sh.sub_tasks ∧
      ((step ⟨.summarize, sh⟩ i).node = .selectSpec →
        pendingCount (step ⟨.summarize, sh⟩ i).shared.sub_tasks < pendingCount sh.sub_tasks) := by
  rw [step_summarize]
  exact ⟨⟨hnd, by simp⟩, by simp [mu, rank], le_refl _, by simp⟩

/-- One engine step preserves well-formedness, strictly decreases the
measure, never increases the pending count, and strictly decreases it on
every return to the Task Selector. -/
theorem step_progress (c : Config) (i : StepInput) (hwf : WF c) (hnotdone : ¬ Done c) :
    WF (step c i) ∧ mu (step c i) < mu c ∧
      pendingCount (step c i).shared.sub_tasks ≤ pendingCount c.shared.sub_tasks ∧
      ((step c i).node = .selectSpec →
        pendingCount (step c i).shared.sub_tasks < pendingCount c.shared.sub_tasks) := by
  obtain ⟨n, sh⟩ := c
  obtain ⟨hnd, hinv⟩ := hwf
  cases n with
  | terminated => exact absurd (Or.inl rfl) hnotdone
  | crashed => exact absurd (Or.inr rfl) hnotdone
  | summarize => exact progress_summarize sh i hnd
  | selectSpec => exact progress_selectSpec sh i hnd
  | findPrep =>
    obtain ⟨cid, t, hcur, hfind, hpend⟩ := hinv (Or.inl rfl)
    exact progress_findPrep sh i hnd cid t hcur hfind hpend
  | executeAPI =>
    obtain ⟨cid, t, hcur, hfind, hpend⟩ := hinv (Or.inr rfl)
    exact progress_executeAPI sh i hnd cid t hcur hfind hpend

/-! ### Termination and visit bounds -/

theorem run_done_of_mu_le (m : Nat) :
    ∀ (c : Config) (stream : Nat → StepInput), WF c → mu c ≤ m → Done (run stream m c) := by
  induction m with
  | zero =>
    intro c stream hwf hmu
    obtain ⟨n, sh⟩ := c
    cases n with
    | selectSpec => simp [mu, rank] at hmu
    | findPrep => simp [mu, rank] at hmu
    | executeAPI => simp [mu, rank] at hmu
    | summarize => simp [mu, rank] at hmu
    | terminated => exact Or.inl rfl
    | crashed => exact Or.inr rfl
  | succ m ih =>
    intro c stream hwf hmu
    by_cases hdone : Done c
    · exact done_run_of_done hdone stream (m + 1)
    · obtain ⟨hwf2, hlt, _, _⟩ := step_progress c (stream 0) hwf hdone
      rw [run]
      exact ih _ _ hwf2 (by omega)

theorem selectCount_le (k : Nat) :
    ∀ (c : Config) (stream : Nat → StepInput), WF c →
      selectCount stream k c ≤
        pendingCount c.shared.sub_tasks + (if c.node = .selectSpec then 1 else 0) := by
  induction k with
  | zero =>
    intro c stream hwf
    exact Nat.zero_le _
  | succ k ih =>
    intro c stream hwf
    by_cases hdone : Done c
    · rw [selectCount_of_done hdone]
      exact Nat.zero_le _
    · obtain ⟨hwf2, _, hle, hstrict⟩ := step_progress c (stream 0) hwf hdone
      have hk := ih (step c (stream 0)) (fun n => stream (n + 1)) hwf2
      rw [selectCount]
      by_cases hns : (step c (stream 0)).node = .selectSpec
      · have hlt := hstrict hns
        rw [if_pos hns] at hk
        by_cases hcs : c.node = .selectSpec
        · rw [if_pos hcs]
          omega
        · rw [if_neg hcs]
          omega
      · rw [if_neg hns] at hk
        by_cases hcs : c.node = .selectSpec
        · rw [if_pos hcs]
          omega
        · rw [if_neg hcs]
          omega

/-! ### The terminal-action invariant: no pending task survives -/

theorem no_pending_of_firstPending_none {l : List AgentTask}
    (h : firstPending l = none) : ∀ t ∈ l, t.status ≠ .pending := by
  intro t ht hp
  exact (List.find?_eq_none.mp h t ht) ((isPending_iff t).mpr hp)

theorem selectSpecStep_action {sh : Shared} {llm : String} {sh2 : Shared} {act : Option String}
    (h : selectSpecStep sh llm = .ok (sh2, act)) :
    (act = some "summarize" ∧ sh2 = sh ∧ firstPending sh.sub_tasks = none) ∨
      act = some "process_task_loop" ∨ act = some "spec_selected" := by
  cases hfp : firstPending sh.sub_tasks with
  | none =>
    rw [selectSpecStep_exhausted llm hfp] at h
    simp only [Except.ok.injEq, Prod.mk.injEq] at h
    exact Or.inl ⟨h.2.symm, h.1.symm, rfl⟩
  | some t =>
    simp only [selectSpecStep, hfp, SelectSpec.post] at h
    repeat' split at h
    all_goals simp_all

theorem findPrepPost_action {sh : Shared} {fr : FindRes} {sh2 : Shared} {act : Option String}
    (h : findPrepPost sh fr = .ok (sh2, act)) :
    act = some "process_task_loop" ∨ act = some "execute" := by
  simp only [findPrepPost] at h
  repeat' split at h
  all_goals simp_all

theorem findPrepStep_action {sh : Shared} {llm : String} {parse : Except String ParsedDetails}
    {sh2 : Shared} {act : Option String}
    (h : findPrepStep sh llm parse = .ok (sh2, act)) :
    act = some "process_task_loop" ∨ act = some "execute" := by
  simp only [findPrepStep] at h
  repeat' split at h
  all_goals first
    | simp_all
    | exact findPrepPost_action h

theorem executeApiStep_action {sh : Shared} {api : ApiResult}
    {sh2 : Shared} {act : Option String}
    (h : executeApiStep sh api = .ok (sh2, act)) :
    act = some "process_task_loop" := by
  simp only [executeApiStep] at h
  repeat' split at h
  all_goals simp_all

theorem step_preserves_noPending {c : Config} (i : StepInput)
    (hc : (c.node = .summarize ∨ c.node = .terminated) →
      ∀ t ∈ c.shared.sub_tasks, t.status ≠ .pending) :
    ((step c i).node = .summarize ∨ (step c i).node = .terminated) →
      ∀ t ∈ (step c i).shared.sub_tasks, t.status ≠ .pending := by
  obtain ⟨n, sh⟩ := c
  cases n with
  | terminated =>
    rw [step_of_done (Or.inl rfl)]
    exact hc
  | crashed =>
    rw [step_of_done (Or.inr rfl)]
    exact hc
  | summarize =>
    rw [step_summarize]
    intro _ t ht
    exact hc (Or.inl rfl) t ht
  | selectSpec =>
    rw [step_node_eq _ _ _ (Or.inl rfl)]
    cases hres : selectSpecStep sh i.llm with
    | error e =>
      simp only [nodeRun, hres]
      intro hend
      rcases hend with hend | hend <;> cases hend
    | ok pr =>
      obtain ⟨sh2, act⟩ := pr
      rcases selectSpecStep_action hres with ⟨ha, hsh, hfp⟩ | ha | ha <;> subst ha
      · subst hsh
        simp only [nodeRun, hres, flowNext]
        intro _
        exact no_pending_of_firstPending_none hfp
      · simp only [nodeRun, hres, flowNext]
        intro hend
        rcases hend with hend | hend <;> cases hend
      · simp only [nodeRun, hres, flowNext]
        intro hend
        rcases hend with hend | hend <;> cases hend
  | findPrep =>
    rw [step_node_eq _ _ _ (Or.inr (Or.inl rfl))]
    cases hres : findPrepStep sh i.llm i.parse with
    | error e =>
      simp only [nodeRun, hres]
      intro hend
      rcases hend with hend | hend <;> cases hend
    | ok pr =>
      obtain ⟨sh2, act⟩ := pr
      rcases findPrepStep_action hres with ha | ha <;> subst ha <;>
        simp only [nodeRun, hres, flowNext] <;>
        · intro hend
          rcases hend with hend | hend <;> cases hend
  | executeAPI =>
    rw [step_node_eq _ _ _ (Or.inr (Or.inr rfl))]
    cases hres : executeApiStep sh i.api with
    | error e =>
      simp only [nodeRun, hres]
      intro hend
      rcases hend with hend | hend <;> cases hend
    | ok pr =>
      obtain ⟨sh2, act⟩ := pr
      have ha := executeApiStep_action hres
      subst ha
      simp only [nodeRun, hres, flowNext]
      intro hend
      rcases hend with hend | hend <;> cases hend

theorem run_preserves_noPending (k : Nat) :
    ∀ (c : Config) (stream : Nat → StepInput),
      ((c.node = .summarize ∨ c.node = .terminated) →
        ∀ t ∈ c.shared.sub_tasks, t.status ≠ .pending) →
      ((run stream k c).node = .summarize ∨ (run stream k c).node = .terminated) →
        ∀ t ∈ (run stream k c).shared.sub_tasks, t.status ≠ .pending := by
  induction k with
  | zero =>
    intro c stream hc
    exact hc
  | succ k ih =>
    intro c stream hc
    rw [run]
    exact ih _ _ (step_preserves_noPending (stream 0) hc)

/-! ### Claim theorems -/

/-- C1: for every run of the task loop and every collaborator behaviour,
whenever the engine reaches the Result Synthesizer — and hence its terminal
action — every task in the sub-task sequence has status completed or error
and none is pending; the Task Selector routes to the synthesis action only
when no pending task exists. -/
theorem C1_terminal_no_pending (stream : Nat → StepInput) (sh0 : Shared) (k : Nat)
    (hend : (run stream k ⟨.selectSpec, sh0⟩).node = .summarize ∨
            (run stream k ⟨.selectSpec, sh0⟩).node = .terminated) :
    ∀ t ∈ (run stream k ⟨.selectSpec, sh0⟩).shared.sub_tasks,
      t.status = .completed ∨ t.status = .error := by
  intro t ht
  have hstart : ((⟨.selectSpec, sh0⟩ : Config).node = .summarize ∨
      (⟨.selectSpec, sh0⟩ : Config).node = .terminated) →
      ∀ u ∈ (⟨.selectSpec, sh0⟩ : Config).shared.sub_tasks, u.status ≠ .pending := by
    intro hc
    rcases hc with hc | hc <;> exact absurd hc (by simp)
  have h := run_preserves_noPending k ⟨.selectSpec, sh0⟩ stream hstart hend t ht
  cases hst : t.status with
  | pending => exact absurd hst h
  | completed => exact Or.inl rfl
  | error => exact Or.inr rfl

/-- Witness for C1: a run whose single task is completed reaches the
synthesis step in one engine step, and that task indeed ends completed. -/
theorem C1_terminal_no_pending_witness :
    (run (fun _ => inp0) 1 ⟨.selectSpec, shDone⟩).node = .summarize ∧
      (taskDone.status = .completed ∨ taskDone.status = .error) :=
  ⟨by decide,
   C1_terminal_no_pending (fun _ => inp0) shDone 1 (Or.inl (by decide)) taskDone (by decide)⟩

/-- C2: for a run over N decomposed tasks (their ids are duplicate-free),
the engine halts within 3·N+3 steps from the Task Selector, and the
selector is visited at most N+1 times in any prefix of the run — its
self-loop edge is taken at most N times before the pending tasks are
exhausted, no matter how many tasks fail. -/
theorem C2_bounded_termination (stream : Nat → StepInput) (sh0 : Shared)
    (hnd : (sh0.sub_tasks.map AgentTask.id).Nodup) :
    Done (run stream (3 * sh0.sub_tasks.length + 3) ⟨.selectSpec, sh0⟩) ∧
      ∀ k, selectCount stream k ⟨.selectSpec, sh0⟩ ≤ sh0.sub_tasks.length + 1 := by
  have hwf : WF ⟨.selectSpec, sh0⟩ := by
    refine ⟨hnd, ?_⟩
    intro hc
    rcases hc with hc | hc <;> exact absurd hc (by simp)
  have hmu : mu ⟨.selectSpec, sh0⟩ = 3 * pendingCount sh0.sub_tasks + 3 := rfl
  have hlen : pendingCount sh0.sub_tasks ≤ sh0.sub_tasks.length := pendingCount_le_length _
  constructor
  · exact run_done_of_mu_le _ _ stream hwf (by omega)
  · intro k
    have hb := selectCount_le k ⟨.selectSpec, sh0⟩ stream hwf
    simp at hb
    omega

/-- Witness for C2: one pending task, arbitrary collaborator failures: the
run halts within six steps and the selector is visited at most twice. -/
theorem C2_bounded_termination_witness :
    Done (run (fun _ => inp0) 6 ⟨.selectSpec, shOne⟩) ∧
      selectCount (fun _ => inp0) 10 ⟨.selectSpec, shOne⟩ ≤ 2 :=
  ⟨(C2_bounded_termination (fun _ => inp0) shOne (by decide)).1,
   (C2_bounded_termination (fun _ => inp0) shOne (by decide)).2 10⟩

theorem isSuccess_iff (api : ApiResult) :
    isSuccess api = true ↔
      ((∃ sc, api.status_code = some sc ∧ 200 ≤ sc ∧ sc < 300) ∧ api.error = none) := by
  cases hsc : api.status_code with
  | none => simp [isSuccess, hsc]
  | some sc =>
    cases herr : api.error with
    | none => simp [isSuccess, hsc, herr]
    | some e => simp [isSuccess, hsc, herr]

theorem dictGetNat_dictSetNat (l : List (Nat × Option String)) (k : Nat) (v : Option String) :
    dictGetNat (dictSetNat l k v) k = some v := by
  induction l with
  | nil => simp [dictSetNat, dictGetNat, List.find?]
  | cons p rest ih =>
    obtain ⟨k0, v0⟩ := p
    by_cases hk : k0 = k
    · simp [dictSetNat, hk, dictGetNat, List.find?]
    · simpa [dictSetNat, hk, dictGetNat, List.find?, hk] using ih

/-- C6: when the Task Selector's collaborator response does not name a
loaded catalog id, or the collaborator reports failure, the current task is
marked error with a descriptive message, the flow takes the self-loop edge
back to the selector — never the edge to request preparation — and since
the task is no longer pending it can never be selected again. -/
theorem C6_invalid_selection_skips (sh : Shared) (resp : String) (t : AgentTask)
    (hnd : (sh.sub_tasks.map AgentTask.id).Nodup)
    (hfp : firstPending sh.sub_tasks = some t)
    (hls : sh.loaded_specs.isEmpty = false)
    (h0 : t.id ≠ 0)
    (hbad : pyContains resp "LLM_ERROR" = true ∨
            dictHas sh.loaded_specs (pyStrip resp) = false) :
    ∃ sh2,
      selectSpecStep sh resp = .ok (sh2, some "process_task_loop") ∧
      flowNext .selectSpec "process_task_loop" = some .selectSpec ∧
      flowNext .selectSpec "process_task_loop" ≠ some .findPrep ∧
      (∃ t2, findById sh2.sub_tasks t.id = some t2 ∧ t2.status = .error ∧
        t2.error = some ("Failed to select a valid spec. LLM response: "
          ++ SelectSpec.exec resp)) ∧
      (∀ u, firstPending sh2.sub_tasks = some u → u.id ≠ t.id) := by
  have hval : (SelectSpec.exec resp == "SPEC_SELECTION_FAILED"
      || !(dictHas sh.loaded_specs (SelectSpec.exec resp))) = true := by
    by_cases hm : pyContains resp "LLM_ERROR" = true
    · simp [SelectSpec.exec, hm]
    · have hnotin : dictHas sh.loaded_specs (pyStrip resp) = false := by
        rcases hbad with hb | hb
        · exact absurd hb hm
        · exact hb
      simp [SelectSpec.exec, hm, hnotin]
  have hfind : findById sh.sub_tasks t.id = some t := firstPending_findById hnd hfp
  refine ⟨_, selectSpecStep_invalid hnd hfp hls h0 hval, rfl, by decide, ?_, ?_⟩
  · exact ⟨_, @findById_updateById sh.sub_tasks t.id t
      (fun u =>
        { u with
            status := .error
            error := some ("Failed to select a valid spec. LLM response: "
              ++ SelectSpec.exec resp) })
      hfind (fun _ => rfl), rfl, rfl⟩
  · intro u hu heq
    have hmem : u ∈ updateById sh.sub_tasks t.id (fun u =>
        { u with
            status := .error
            error := some ("Failed to select a valid spec. LLM response: "
              ++ SelectSpec.exec resp) }) :=
      firstPending_mem hu
    have hnd2 : ((updateById sh.sub_tasks t.id (fun u =>
        { u with
            status := .error
            error := some ("Failed to select a valid spec. LLM response: "
              ++ SelectSpec.exec resp) })).map AgentTask.id).Nodup := by
      have hmap := @updateById_map_id sh.sub_tasks t.id
        (fun u =>
          { u with
              status := .error
              error := some ("Failed to select a valid spec. LLM response: "
                ++ SelectSpec.exec resp) })
        (fun _ => rfl)
      rw [hmap]
      exact hnd
    have h1 := findById_of_mem_nodup hnd2 hmem
    rw [heq] at h1
    have h2 := @findById_updateById sh.sub_tasks t.id t
      (fun u =>
        { u with
            status := .error
            error := some ("Failed to select a valid spec. LLM response: "
              ++ SelectSpec.exec resp) })
      hfind (fun _ => rfl)
    rw [h1] at h2
    have hupd := Option.some.inj h2
    have hpend : u.isPending = true := firstPending_isPending hu
    rw [hupd] at hpend
    simp [AgentTask.isPending] at hpend

/-- Witness for C6: a response naming no loaded spec id errors the task and
self-loops. -/
theorem C6_invalid_selection_skips_witness :
    ∃ sh2,
      selectSpecStep shOne "nonexistent.yaml" = .ok (sh2, some "process_task_loop") ∧
      flowNext .selectSpec "process_task_loop" = some .selectSpec ∧
      flowNext .selectSpec "process_task_loop" ≠ some .findPrep ∧
      (∃ t2, findById sh2.sub_tasks (mkTask 1 "Get widget").id = some t2 ∧
        t2.status = .error ∧
        t2.error = some ("Failed to select a valid spec. LLM response: "
          ++ SelectSpec.exec "nonexistent.yaml")) ∧
      (∀ u, firstPending sh2.sub_tasks = some u → u.id ≠ (mkTask 1 "Get widget").id) :=
  C6_invalid_selection_skips shOne "nonexistent.yaml" (mkTask 1 "Get widget")
    (by decide) (by decide) (by decide) (by decide) (Or.inr (by decide))

/-- C7: the Request Runner classifies an outcome as success exactly when a
status code is present, lies in 200–299, and the error field is unset; on
success the task becomes completed, the body is stored as the task result
and in the context result mapping under the task id; otherwise the task
becomes error and the result mapping is left untouched; either way the
runner routes back to the Task Selector. -/
theorem C7_runner_classification (sh : Shared) (api : ApiResult)
    (cid : Nat) (t : AgentTask) (d : ApiDetails) (u : String)
    (hcur : sh.current_task_id = some cid) (h0 : cid ≠ 0)
    (hfind : findById sh.sub_tasks cid = some t)
    (hd : t.api_details = some d) (hu : d.url = some u) (hne : u ≠ "") :
    ∃ sh2, executeApiStep sh api = .ok (sh2, some "process_task_loop") ∧
      flowNext .executeAPI "process_task_loop" = some .selectSpec ∧
      ∃ t2, findById sh2.sub_tasks cid = some t2 ∧
        ((((∃ sc, api.status_code = some sc ∧ 200 ≤ sc ∧ sc < 300) ∧ api.error = none)) ↔
          t2.status = .completed) ∧
        (((∃ sc, api.status_code = some sc ∧ 200 ≤ sc ∧ sc < 300) ∧ api.error = none) →
          t2.result = api.body ∧ dictGetNat sh2.task_results cid = some api.body) ∧
        (¬((∃ sc, api.status_code = some sc ∧ 200 ≤ sc ∧ sc < 300) ∧ api.error = none) →
          t2.status = .error ∧ t2.error = some (execFullError api) ∧
            sh2.task_results = sh.task_results) := by
  have heq := executeApiStep_eq api hcur h0 hfind hd hu hne
  cases hs : isSuccess api with
  | true =>
    rw [if_pos hs] at heq
    have hP : (∃ sc, api.status_code = some sc ∧ 200 ≤ sc ∧ sc < 300) ∧ api.error = none :=
      (isSuccess_iff api).mp hs
    refine ⟨_, heq, rfl, ?_⟩
    refine ⟨_, @findById_updateById sh.sub_tasks cid t
      (fun t0 => { t0 with status := .completed, result := api.body, error := none })
      hfind (fun _ => rfl), ?_, ?_, ?_⟩
    · exact iff_of_true hP rfl
    · intro _
      exact ⟨rfl, dictGetNat_dictSetNat sh.task_results cid api.body⟩
    · intro hnP
      exact absurd hP hnP
  | false =>
    rw [if_neg (by simp [hs])] at heq
    have hnP : ¬((∃ sc, api.status_code = some sc ∧ 200 ≤ sc ∧ sc < 300) ∧ api.error = none) := by
      intro hP
      rw [(isSuccess_iff api).mpr hP] at hs
      cases hs
    refine ⟨_, heq, rfl, ?_⟩
    refine ⟨_, @findById_updateById sh.sub_tasks cid t
      (fun t0 =>
        { t0 with
            status := .error
            result := none
            error := some (execFullError api) })
      hfind (fun _ => rfl), ?_, ?_, ?_⟩
    · exact iff_of_false hnP (by intro hcontra; cases hcontra)
    · intro hP
      exact absurd hP hnP
    · intro _
      exact ⟨rfl, rfl, rfl⟩

/-- Witness for C7: a 404 outcome marks the task error, records the
diagnostic message, and leaves the result mapping untouched. -/
theorem C7_runner_classification_witness :
    ∃ sh2, executeApiStep shExec api404 = .ok (sh2, some "process_task_loop") ∧
      flowNext .executeAPI "process_task_loop" = some .selectSpec ∧
      ∃ t2, findById sh2.sub_tasks 1 = some t2 ∧
        ((((∃ sc, api404.status_code = some sc ∧ 200 ≤ sc ∧ sc < 300) ∧ api404.error = none)) ↔
          t2.status = .completed) ∧
        (((∃ sc, api404.status_code = some sc ∧ 200 ≤ sc ∧ sc < 300) ∧ api404.error = none) →
          t2.result = api404.body ∧ dictGetNat sh2.task_results 1 = some api404.body) ∧
        (¬((∃ sc, api404.status_code = some sc ∧ 200 ≤ sc ∧ sc < 300) ∧ api404.error = none) →
          t2.status = .error ∧ t2.error = some (execFullError api404) ∧
            sh2.task_results = shExec.task_results) :=
  C7_runner_classification shExec api404 1 taskExec apiDetailsW
    "https://api.example.com/items/42" rfl (by decide) (by decide) rfl rfl (by decide)

/-- C10 counterexample: the claim fails when a loaded catalog id contains
the reserved failure marker.  The response `"LLM_ERROR_spec\n"` equals the
loaded id `"LLM_ERROR_spec"` up to surrounding whitespace, yet the selector
rejects it: the task is marked error, no id is stored, and the flow
self-loops instead of accepting. -/
theorem C10_whitespace_counterexample :
    pyStrip "LLM_ERROR_spec\n" = "LLM_ERROR_spec" ∧
    dictHas shMarkerSpec.loaded_specs (pyStrip "LLM_ERROR_spec\n") = true ∧
    selectSpecStep shMarkerSpec "LLM_ERROR_spec\n" =
      .ok (shMarkerAfter, some "process_task_loop") ∧
    findById shMarkerAfter.sub_tasks 1 =
      some { id := 1, description := "Get widget", status := .error, selected_spec_id := none,
             api_details := none, result := none,
             error := some "Failed to select a valid spec. LLM response: SPEC_SELECTION_FAILED" } :=
  ⟨rfl, rfl, rfl, rfl⟩

/-- C10 (amended): the selector strips the response before validating, so a
response equal to a loaded id up to surrounding whitespace is accepted and
the stripped id stored — provided the response does not contain the
reserved failure marker and does not strip to the reserved sentinel. -/
theorem C10_strip_before_validate (sh : Shared) (resp : String) (t : AgentTask)
    (hnd : (sh.sub_tasks.map AgentTask.id).Nodup)
    (hfp : firstPending sh.sub_tasks = some t)
    (hls : sh.loaded_specs.isEmpty = false)
    (h0 : t.id ≠ 0)
    (hm : pyContains resp "LLM_ERROR" = false)
    (hsent : pyStrip resp ≠ "SPEC_SELECTION_FAILED")
    (hin : dictHas sh.loaded_specs (pyStrip resp) = true) :
    ∃ sh2,
      selectSpecStep sh resp = .ok (sh2, some "spec_selected") ∧
      flowNext .selectSpec "spec_selected" = some .findPrep ∧
      ∃ t2, findById sh2.sub_tasks t.id = some t2 ∧
        t2.selected_spec_id = some (pyStrip resp) ∧ t2.status = t.status := by
  have hexec : SelectSpec.exec resp = pyStrip resp := by
    simp [SelectSpec.exec, hm]
  have hval : (SelectSpec.exec resp == "SPEC_SELECTION_FAILED"
      || !(dictHas sh.loaded_specs (SelectSpec.exec resp))) = false := by
    rw [hexec]
    simp [hsent, hin]
  have hfind : findById sh.sub_tasks t.id = some t := firstPending_findById hnd hfp
  refine ⟨_, selectSpecStep_valid hnd hfp hls h0 hval, rfl, ?_⟩
  refine ⟨_, @findById_updateById sh.sub_tasks t.id t
    (fun u => { u with selected_spec_id := some (SelectSpec.exec resp) }) hfind (fun _ => rfl),
    ?_, rfl⟩
  rw [hexec]

/-- Witness for the amended C10: a response with a trailing newline is
accepted and stored stripped. -/
theorem C10_strip_before_validate_witness :
    ∃ sh2,
      selectSpecStep shOne "widget.yaml\n" = .ok (sh2, some "spec_selected") ∧
      flowNext .selectSpec "spec_selected" = some .findPrep ∧
      ∃ t2, findById sh2.sub_tasks (mkTask 1 "Get widget").id = some t2 ∧
        t2.selected_spec_id = some (pyStrip "widget.yaml\n") ∧
        t2.status = (mkTask 1 "Get widget").status :=
  C10_strip_before_validate shOne "widget.yaml\n" (mkTask 1 "Get widget")
    (by decide) (by decide) (by decide) (by decide) (by decide) (by decide) (by decide)

/-! ### Path-substitution lemmas -/

theorem substPathParams_ok_no_fill {p : String} {ps : List (String × String)} {r : String}
    (h : substPathParams p ps = .ok r) : ∀ q ∈ ps, q.2 ≠ "<FILL_ME>" := by
  induction ps generalizing p with
  | nil =>
    intro q hq
    cases hq
  | cons q0 rest ih =>
    obtain ⟨n, v⟩ := q0
    by_cases hv : (v == "<FILL_ME>") = true
    · rw [substPathParams, if_pos hv] at h
      cases h
    · rw [substPathParams, if_neg hv] at h
      intro q hq
      rcases List.mem_cons.mp hq with hq | hq
      · subst hq
        simpa using hv
      · exact ih h q hq

theorem prepareDetails_ok_no_fill {details : ParsedDetails} {spec : SpecDoc} {d : ApiDetails}
    (h : prepareDetails details spec = .ok d) :
    ∀ p ∈ details.paramsPath, p.2 ≠ "<FILL_ME>" := by
  cases hrb : resolveBaseUrl details spec with
  | error m =>
    rw [prepareDetails, hrb] at h
    cases h
  | ok base =>
    cases hsub : substPathParams details.path details.paramsPath with
    | error m =>
      rw [prepareDetails, hrb, hsub] at h
      cases h
    | ok fp =>
      exact substPathParams_ok_no_fill hsub

theorem findPrepPost_err_never_execute {sh : Shared} {m : String} {sh2 : Shared}
    (h : findPrepPost sh (.err m) = .ok (sh2, some "execute")) : False := by
  simp only [findPrepPost] at h
  repeat' split at h
  all_goals simp_all

theorem substPathParams_fill_error {ps : List (String × String)}
    (hfill : ∃ q ∈ ps, q.2 = "<FILL_ME>") :
    ∀ p : String, ∃ n, (n, "<FILL_ME>") ∈ ps ∧ substPathParams p ps = .error (fillMeErr n) := by
  induction ps with
  | nil =>
    obtain ⟨q, hq, _⟩ := hfill
    cases hq
  | cons q0 rest ih =>
    obtain ⟨n0, v0⟩ := q0
    intro p
    by_cases hv : (v0 == "<FILL_ME>") = true
    · have hv0 : v0 = "<FILL_ME>" := by simpa using hv
      subst hv0
      exact ⟨n0, List.mem_cons_self _ _, by rw [substPathParams, if_pos hv]⟩
    · have hrest : ∃ q ∈ rest, q.2 = "<FILL_ME>" := by
        obtain ⟨q, hq, hqf⟩ := hfill
        rcases List.mem_cons.mp hq with hq | hq
        · subst hq
          exact absurd (by simpa using hqf) (by simpa using hv)
        · exact ⟨q, hq, hqf⟩
      obtain ⟨n, hmem, hsub⟩ := ih hrest
        (pyReplace (pyReplace p ("\x7b" ++ n0 ++ "\x7d") v0) ("\x7b\x7b" ++ n0 ++ "\x7d\x7d") v0)
      exact ⟨n, List.mem_cons_of_mem _ hmem, by rw [substPathParams, if_neg hv]; exact hsub⟩

/-- C3 counterexample: the Request Preparer routes to execution a
descriptor whose URL still contains a brace-delimited template parameter —
`detailsUnlisted` names `\x7bid\x7d` in its path but binds no path
parameters, and no scan of the final URL is performed. -/
theorem C3_unresolved_placeholder_counterexample :
    findPrepStep shPrep "use the widget api" (.ok detailsUnlisted) =
      .ok (shPrepAfterUnlisted, some "execute") ∧
    detailsUnlistedApi.url = some "https://api.example.com/items/\x7bid\x7d" ∧
    pyContains "https://api.example.com/items/\x7bid\x7d" "\x7bid\x7d" = true :=
  ⟨rfl, rfl, rfl⟩

/-- C3 (amended): when the Request Preparer routes to the execution action,
every path parameter listed in the binding has a non-placeholder value —
but this is all that is guaranteed: the final URL itself is never scanned,
so template parameters missing from the binding (and placeholder tokens
arriving in other fields) pass through. -/
theorem C3_bound_params_resolved (sh : Shared) (llm : String)
    (details : ParsedDetails) (sh2 : Shared)
    (h : findPrepStep sh llm (.ok details) = .ok (sh2, some "execute")) :
    ∀ p ∈ details.paramsPath, p.2 ≠ "<FILL_ME>" := by
  cases hcur : sh.current_task_id with
  | none =>
    simp only [findPrepStep, hcur] at h
    cases h
  | some cid =>
    by_cases h0 : cid = 0
    · simp only [findPrepStep, hcur, if_pos h0] at h
      cases h
    · cases hfind : findById sh.sub_tasks cid with
      | none =>
        simp only [findPrepStep, hcur, if_neg h0, hfind] at h
        cases h
      | some t =>
        cases hsel : t.selected_spec_id with
        | none =>
          simp only [findPrepStep, hcur, if_neg h0, hfind, hsel] at h
          cases h
        | some sid =>
          by_cases hsid : sid = ""
          · simp only [findPrepStep, hcur, if_neg h0, hfind, hsel, if_pos hsid] at h
            cases h
          · cases hdg : dictGet sh.loaded_specs sid with
            | none =>
              simp only [findPrepStep, hcur, if_neg h0, hfind, hsel, if_neg hsid, hdg] at h
              cases h
            | some info =>
              simp only [findPrepStep, hcur, if_neg h0, hfind, hsel, if_neg hsid, hdg] at h
              by_cases hm : pyContains llm "LLM_ERROR" = true
              · rw [findPrepExec, if_pos hm] at h
                exact absurd h (fun hh => findPrepPost_err_never_execute hh)
              · rw [findPrepExec, if_neg hm] at h
                cases hpd : prepareDetails details info.parsed with
                | error m =>
                  rw [hpd] at h
                  exact absurd h (fun hh => findPrepPost_err_never_execute hh)
                | ok d =>
                  exact prepareDetails_ok_no_fill hpd

/-- Witness for the amended C3: a fully bound template prepares and routes
to execution, and its one binding carries no placeholder. -/
theorem C3_bound_params_resolved_witness :
    ("id", "42") ∈ detailsGood.paramsPath ∧ ("id", "42").2 ≠ "<FILL_ME>" :=
  ⟨by decide,
   C3_bound_params_resolved shPrep "use the widget api" detailsGood shPrepAfterGood rfl
     ("id", "42") (by decide)⟩

/-- C4 evaluation at the failing input: for the double-brace template
`/items/\x7b\x7bid\x7d\x7d` with binding `id ↦ 42`, the single-brace
replacement runs first and consumes the inner braces, so the resolved path
is `/items/\x7b42\x7d` — one brace pair is left around the value — and the
URL forwards it. -/
theorem C4_double_brace_leftover_eval :
    substPathParams "/items/\x7b\x7bid\x7d\x7d" [("id", "42")] = .ok "/items/\x7b42\x7d" ∧
    prepareDetails detailsDouble specInfoW.parsed =
      .ok { method := "GET", url := some "https://api.example.com/items/\x7b42\x7d",
            headers := [], params := [], body := none } ∧
    pyContains "/items/\x7b42\x7d" "\x7b" = true :=
  ⟨rfl, rfl, rfl⟩

/-- C5 counterexample: with an unresolved path parameter `userId` *and* no
determinable base URL, the task is marked error — but with the base-URL
message, which does not name the parameter, because the base-URL check of
`FindAndPrepareApi.exec` runs before the path-parameter check. -/
theorem C5_base_url_precedes_counterexample :
    detailsFillNoBase.paramsPath = [("userId", "<FILL_ME>")] ∧
    findPrepStep shPrepNoServers "use the widget api" (.ok detailsFillNoBase) =
      .ok (shPrepNoSrvAfter, some "process_task_loop") ∧
    findById shPrepNoSrvAfter.sub_tasks 1 =
      some { id := 1, description := "Get widget", status := .error,
             selected_spec_id := some "widget.yaml", api_details := none, result := none,
             error := some "Could not determine server base URL from LLM or spec." } ∧
    pyContains "Could not determine server base URL from LLM or spec." "userId" = false :=
  ⟨rfl, rfl, rfl, rfl⟩

/-- C5 (amended): whenever a path parameter is bound to the placeholder
token, preparation fails the task: it is marked error, no descriptor is
stored (the task's descriptor field is unchanged), and the flow routes back
to the Task Selector; when a server base URL is determinable, the message
names the offending parameter (otherwise the earlier base-URL error message
is recorded). -/
theorem C5_placeholder_fails_task (sh : Shared) (llm : String) (details : ParsedDetails)
    (cid : Nat) (t : AgentTask) (sid : String) (info : SpecInfo)
    (hcur : sh.current_task_id = some cid) (h0 : cid ≠ 0)
    (hfind : findById sh.sub_tasks cid = some t)
    (hsel : t.selected_spec_id = some sid) (hsid : sid ≠ "")
    (hdg : dictGet sh.loaded_specs sid = some info)
    (hm : pyContains llm "LLM_ERROR" = false)
    (hfill : ∃ p ∈ details.paramsPath, p.2 = "<FILL_ME>") :
    ∃ msg sh2,
      findPrepStep sh llm (.ok details) = .ok (sh2, some "process_task_loop") ∧
      flowNext .findPrep "process_task_loop" = some .selectSpec ∧
      (∃ t2, findById sh2.sub_tasks cid = some t2 ∧ t2.status = .error ∧
        t2.error = some msg ∧ t2.api_details = t.api_details) ∧
      (∀ b, resolveBaseUrl details info.parsed = .ok b →
        ∃ n, (n, "<FILL_ME>") ∈ details.paramsPath ∧ msg = fillMeErr n) := by
  have main : ∀ msg, prepareDetails details info.parsed = .error msg →
      ∃ sh2,
        findPrepStep sh llm (.ok details) = .ok (sh2, some "process_task_loop") ∧
        flowNext .findPrep "process_task_loop" = some .selectSpec ∧
        (∃ t2, findById sh2.sub_tasks cid = some t2 ∧ t2.status = .error ∧
          t2.error = some msg ∧ t2.api_details = t.api_details) := by
    intro msg hpd
    have hexec : findPrepExec llm (.ok details) info.parsed = .err msg := by
      rw [findPrepExec, if_neg (by simp [hm]), hpd]
    have hstep : findPrepStep sh llm (.ok details) =
        .ok ({ sh with sub_tasks := updateById sh.sub_tasks cid (fun u =>
                { u with status := .error, error := some msg }) },
             some "process_task_loop") := by
      rw [findPrepStep_eq llm (.ok details) hcur h0 hfind hsel hsid hdg, hexec,
        findPrepPost_err msg hcur hfind]
    exact ⟨_, hstep, rfl,
      ⟨_, @findById_updateById sh.sub_tasks cid t
        (fun u => { u with status := .error, error := some msg }) hfind (fun _ => rfl),
        rfl, rfl, rfl⟩⟩
  cases hrb : resolveBaseUrl details info.parsed with
  | error mb =>
    have hpd : prepareDetails details info.parsed = .error mb := by
      simp only [prepareDetails, hrb]
    obtain ⟨sh2, h1, h2, h3⟩ := main mb hpd
    refine ⟨mb, sh2, h1, h2, h3, ?_⟩
    intro b hb
    cases hb
  | ok base =>
    obtain ⟨n, hmem, hsub⟩ := substPathParams_fill_error hfill details.path
    have hpd : prepareDetails details info.parsed = .error (fillMeErr n) := by
      simp only [prepareDetails, hrb, hsub]
    obtain ⟨sh2, h1, h2, h3⟩ := main (fillMeErr n) hpd
    exact ⟨fillMeErr n, sh2, h1, h2, h3, fun b _ => ⟨n, hmem, rfl⟩⟩

/-- Witness for the amended C5: with a usable base URL, the placeholder
binding `userId ↦ <FILL_ME>` errors the task with a message naming
`userId`. -/
theorem C5_placeholder_fails_task_witness :
    ∃ msg sh2,
      findPrepStep shPrep "use the widget api" (.ok detailsFill) =
        .ok (sh2, some "process_task_loop") ∧
      flowNext .findPrep "process_task_loop" = some .selectSpec ∧
      (∃ t2, findById sh2.sub_tasks 1 = some t2 ∧ t2.status = .error ∧
        t2.error = some msg ∧
        t2.api_details = none) ∧
      (∀ b, resolveBaseUrl detailsFill specInfoW.parsed = .ok b →
        ∃ n, (n, "<FILL_ME>") ∈ detailsFill.paramsPath ∧ msg = fillMeErr n) :=
  C5_placeholder_fails_task shPrep "use the widget api" detailsFill 1
    { id := 1, description := "Get widget", status := .pending,
      selected_spec_id := some "widget.yaml", api_details := none, result := none,
      error := none }
    "widget.yaml" specInfoW rfl (by decide) (by decide) rfl (by decide) rfl (by decide)
    ⟨("userId", "<FILL_ME>"), by decide, rfl⟩

/-- C8: on the decomposition response `"1. Get widget\n2. Create order"`
the Task Decomposer produces exactly two pending tasks with ids 1 and 2 and
the stripped descriptions; in general, each regex match of
`^\s*\d+\.\s*(.*)` over the stripped response yields one pending task, ids
assigned sequentially from 1 in document order. -/
theorem C8_decomposer_parsing :
    DecomposeQuery.post "1. Get widget\n2. Create order" =
      .ok ([mkTask 1 "Get widget", mkTask 2 "Create order"], "process_task") ∧
    ∀ resp : String, findSteps (pyStrip resp) ≠ [] →
      ∃ tasks, DecomposeQuery.post resp = .ok (tasks, "process_task") ∧
        tasks.length = (findSteps (pyStrip resp)).length ∧
        ∀ j, tasks.get? j = ((findSteps (pyStrip resp)).get? j).map
          (fun d => mkTask (j + 1) (pyStrip d)) := by
  constructor
  · rfl
  · intro resp hne
    cases hsteps : findSteps (pyStrip resp) with
    | nil => exact absurd hsteps hne
    | cons s rest =>
      refine ⟨((s :: rest).enum.map (fun p => mkTask (p.1 + 1) (pyStrip p.2))), ?_, ?_, ?_⟩
      · simp only [DecomposeQuery.post, hsteps]
      · simp [List.enum_length]
      · intro j
        rw [List.get?_eq_getElem?, List.getElem?_map, List.getElem?_enum, ← List.get?_eq_getElem?]
        cases (s :: rest).get? j <;> simp

/-- Witness for C8: a response with surrounding whitespace parses into one
pending task with id 1. -/
theorem C8_decomposer_parsing_witness :
    ∃ tasks, DecomposeQuery.post " 3. Fetch data \n" = .ok (tasks, "process_task") ∧
      tasks.length = (findSteps (pyStrip " 3. Fetch data \n")).length ∧
      ∀ j, tasks.get? j = ((findSteps (pyStrip " 3. Fetch data \n")).get? j).map
        (fun d => mkTask (j + 1) (pyStrip d)) :=
  C8_decomposer_parsing.2 " 3. Fetch data \n" (by decide)

/-- C9 counterexample: the Task Decomposer does *not* consume the reserved
language-model failure marker as data — `DecomposeQuery.exec` raises
(modelled as `Except.error`) when the response carries `LLM_ERROR`, so the
failure escapes the step as an exception. -/
theorem C9_decomposer_raises :
    DecomposeQuery.exec "LLM_ERROR: boom" =
      .error "LLM failed during task decomposition: LLM_ERROR: boom" :=
  rfl

/-- C9 (amended): the Task Selector, Request Preparer and Result
Synthesizer consume the language-model failure marker as an ordinary return
value, and the Request Runner consumes the request executor's error field
as data, always completing with a routing action; only the Task Decomposer
raises on the marker (a fatal condition, since no tasks can be produced). -/
theorem C9_failures_consumed_as_data (r : String) (hr : pyContains r "LLM_ERROR" = true)
    (sh : Shared) (cid : Nat) (t : AgentTask) (d : ApiDetails) (u : String)
    (hcur : sh.current_task_id = some cid) (h0 : cid ≠ 0)
    (hfind : findById sh.sub_tasks cid = some t)
    (hd : t.api_details = some d) (hu : d.url = some u) (hne : u ≠ "") :
    SelectSpec.exec r = "SPEC_SELECTION_FAILED" ∧
    (∀ (parse : Except String ParsedDetails) (spec : SpecDoc),
      findPrepExec r parse spec = .err ("LLM error during API detail extraction: " ++ r)) ∧
    (∀ fr : String, SummarizeResults.exec fr r =
      "Could not generate summary due to LLM error. Results obtained: " ++ fr) ∧
    (∀ api : ApiResult, ∃ sh2, executeApiStep sh api = .ok (sh2, some "process_task_loop")) := by
  refine ⟨by simp [SelectSpec.exec, hr], fun parse spec => by simp [findPrepExec, hr],
    fun fr => by simp [SummarizeResults.exec, hr], fun api => ?_⟩
  have heq := executeApiStep_eq api hcur h0 hfind hd hu hne
  by_cases hs : isSuccess api = true
  · rw [if_pos hs] at heq
    exact ⟨_, heq⟩
  · rw [if_neg hs] at heq
    exact ⟨_, heq⟩

/-- Witness for the amended C9: the marker-bearing response and an
executor failure are both consumed as data. -/
theorem C9_failures_consumed_as_data_witness :
    SelectSpec.exec "LLM_ERROR: boom" = "SPEC_SELECTION_FAILED" ∧
    (∀ (parse : Except String ParsedDetails) (spec : SpecDoc),
      findPrepExec "LLM_ERROR: boom" parse spec =
        .err ("LLM error during API detail extraction: " ++ "LLM_ERROR: boom")) ∧
    (∀ fr : String, SummarizeResults.exec fr "LLM_ERROR: boom" =
      "Could not generate summary due to LLM error. Results obtained: " ++ fr) ∧
    (∀ api : ApiResult, ∃ sh2, executeApiStep shExec api = .ok (sh2, some "process_task_loop")) :=
  C9_failures_consumed_as_data "LLM_ERROR: boom" (by decide) shExec 1 taskExec apiDetailsW
    "https://api.example.com/items/42" rfl (by decide) (by decide) rfl rfl (by decide)

end ApiAgent
